import Mathlib

/-!
# Verification of the parinfer-rust text-transformation engine

A shallow embedding of `src/parinfer.rs` (the single-pass structural editor
for S-expression source code) and proofs about it.

Modelling conventions, recorded once here:

* Machine integers: the Rust `usize` fields become `Nat`; the sentinel
  `usize::MAX` used for "absent column / line" becomes the explicit constant
  `NO_COLUMN` / `NO_LINE_NUMBER` (2^64 - 1).  Casts `as usize` of an `i64`
  are modelled by `intToUsize`, which wraps modulo 2^64 exactly as the cast
  does.  `Delta` (`i64`) becomes `Int`; none of the programs considered here
  get anywhere near `i64` overflow.
* Graphemes: the engine leans on the external `unicode_segmentation` and
  `unicode_width` crates.  Modelled from the spec ("segments text into
  extended grapheme clusters", "Tabs are width 1 in tracking"): every `Char`
  is its own extended grapheme cluster (faithful for text without combining
  sequences), every grapheme occupies one display column (tabs included, per
  the spec), the synthetic newline and the empty replacement occupy zero.
  Concrete inputs in this file stay inside that fragment.
* The extern "C" helpers `is_close_paren` and `state_init` live outside
  `src/`.  Modelled from the spec: `is_close_paren` recognises `)`, `]` and
  the close brace; `state_init` stores the original input text in the state
  (the spec: on failure the answer's `text` defaults to the original input).
* `return_parens` is `false` in every state `get_initial_result` builds and
  nothing ever sets it, so the `closer` / `children` bookkeeping it guards is
  dead code for every public entry point and is omitted here, together with
  the `parens` output list it would feed.
* `partial_result` is likewise `false` in every initial state and never set;
  the field is kept (as `isPartialResult`) because `public_result` branches
  on it.
* The `HashMap`s (`error_pos_cache`, the transformed-`changes` map) become
  association lists with insert-overwrites-key semantics.
* Stateful Rust code becomes explicit state passing; a fallible function of
  type `State -> Result<T>` becomes `State → Except (Error × State) T` so
  that the state as mutated up to the moment of the error stays available,
  exactly as it does to the Rust caller that owns `&mut State`.
-/

namespace Parinfer

/-! ## Constants and basic types -/

def USIZE_MOD : Nat := 2 ^ 64

/-- `usize::MAX`, the sentinel the engine uses for an absent column. -/
def NO_COLUMN : Nat := USIZE_MOD - 1

/-- `usize::MAX`, the sentinel the engine uses for an absent line number. -/
def NO_LINE_NUMBER : Nat := USIZE_MOD - 1

/-- The `as usize` cast of an `i64`, which wraps modulo `2^64`. -/
def intToUsize (i : Int) : Nat := (i % (USIZE_MOD : Int)).toNat

def BACKSLASH : String := "\\"
def BLANK_SPACE : String := " "
def DOUBLE_SPACE : String := "  "
def DOUBLE_QUOTE : String := "\""
def VERTICAL_LINE : String := "|"
def BANG : String := "!"
def NUMBER_SIGN : String := "#"
def NEWLINE : String := "\n"
def TAB : String := "\t"
def GRAVE : String := "`"
def OPEN_PAREN : String := "("
def CLOSE_PAREN : String := ")"
def OPEN_BRACKET : String := "["
def CLOSE_BRACKET : String := "]"
def OPEN_BRACE : String := "\x7b"
def CLOSE_BRACE : String := "\x7d"
def SEMICOLON : String := ";"
def CARRIAGE_RETURN : String := "\r"

def columnToOption (column : Nat) : Option Nat :=
  if column = NO_COLUMN then none else some column

def columnFromOption (column : Option Nat) : Nat :=
  match column with
  | none => NO_COLUMN
  | some c => c

def lineNumberToOption (lineNumber : Nat) : Option Nat :=
  if lineNumber = NO_LINE_NUMBER then none else some lineNumber

def lineNumberFromOption (lineNumber : Option Nat) : Nat :=
  match lineNumber with
  | none => NO_LINE_NUMBER
  | some ln => ln

/-- `match_paren` from the source: the partner of a bracket grapheme. -/
def matchParen (paren : String) : Option String :=
  if paren = OPEN_BRACE then some CLOSE_BRACE
  else if paren = CLOSE_BRACE then some OPEN_BRACE
  else if paren = OPEN_BRACKET then some CLOSE_BRACKET
  else if paren = CLOSE_BRACKET then some OPEN_BRACKET
  else if paren = OPEN_PAREN then some CLOSE_PAREN
  else if paren = CLOSE_PAREN then some OPEN_PAREN
  else none

/-- Modelled from the spec: the extern "C" `is_close_paren` (its C source is
not under `src/`); a close bracket is `)`, `]` or the close brace. -/
def rustIsCloseParen (paren : String) : Bool :=
  paren = CLOSE_PAREN ∨ paren = CLOSE_BRACKET ∨ paren = CLOSE_BRACE

/-! ## Graphemes, widths and columns

Modelled from the spec (external `unicode_segmentation` / `unicode_width`
collaborators): each `Char` is one extended grapheme cluster and occupies
one display column; the synthetic newline occupies zero (so the width of the
empty string is zero, as in the crate). -/

def charWidth (c : Char) : Nat := if c = '\n' then 0 else 1

/-- `UnicodeWidthStr::width` of a grapheme / string. -/
def strWidth (s : String) : Nat := (s.toList.map charWidth).sum

/-- `s.graphemes(true)` of the segmentation crate, on the modelled fragment. -/
def graphemesOf (s : String) : List String := s.toList.map String.singleton

/-- The `(start_column, grapheme)` scan the source performs when walking a
line (`.scan(0, ...)` accumulating widths). -/
def withColumns (gs : List String) : List (Nat × String) :=
  (gs.foldl (fun (acc : Nat × List (Nat × String)) g =>
    (acc.1 + strWidth g, acc.2 ++ [(acc.1, g)])) (0, [])).2

/-! ## String operations -/

/-- `column_byte_index`: the index (of a grapheme boundary) at display
column `x`, defaulting to the end of the string.  Byte indices of the Rust
original coincide with grapheme indices on the modelled fragment. -/
def columnByteIndex (s : String) (x : Nat) : Nat :=
  let rec go : List (Nat × String) → Nat → Nat
    | [], i => i
    | (col, _) :: rest, i => if col = x then i else go rest (i + 1)
  go (withColumns (graphemesOf s)) 0

/-- `replace_within_string`: replace the sub-range `[start, end)` (display
columns) of `orig` with `replace`. -/
def replaceWithinString (orig : String) (start stop : Nat) (replace : String) : String :=
  let startI := columnByteIndex orig start
  let stopI := columnByteIndex orig stop
  let cs := orig.toList
  String.mk (cs.take startI) ++ replace ++ String.mk (cs.drop stopI)

def repeatString (text : String) (n : Nat) : String :=
  String.join (List.replicate n text)

def chompCr (text : String) : String :=
  if text.toList.getLast? = some '\r' then String.mk (text.toList.dropLast) else text

/-- `text.split('\n')` on the character list: `n` newlines give `n + 1`
pieces. -/
def splitOnNewlines : List Char → List (List Char)
  | [] => [[]]
  | c :: rest =>
    match splitOnNewlines rest with
    | [] => [[c]]
    | l :: ls => if c = '\n' then [] :: l :: ls else (c :: l) :: ls

def splitLines (text : String) : List String :=
  (splitOnNewlines text.toList).map (fun cs => chompCr (String.mk cs))

/-- `get_line_ending`: `\r\n` when the original text contains a `\r`,
otherwise `\n`. -/
def getLineEnding (text : String) : String :=
  if text.toList.contains '\r' then CARRIAGE_RETURN ++ NEWLINE else NEWLINE

/-! ## Misc utils -/

/-- `clamp` from the source (generic over `Ord`). -/
def clamp {α : Type} [LinearOrder α] (val : α) (minN maxN : Option α) : α :=
  match minN with
  | some low => if low ≥ val then low else
    match maxN with
    | some high => if high ≤ val then high else val
    | none => val
  | none =>
    match maxN with
    | some high => if high ≤ val then high else val
    | none => val

/-- `peek`: the `i`-th element from the top (= back) of a stack vector. -/
def peek {α : Type} (array : List α) (i : Nat) : Option α :=
  if i ≥ array.length then none else array.get? (array.length - 1 - i)

/-! ## The data model (`types.rs` as used by `parinfer.rs`) -/

inductive ErrorName where
  | quoteDanger
  | eolBackslash
  | unclosedQuote
  | unclosedParen
  | unmatchedCloseParen
  | unmatchedOpenParen
  | leadingCloseParen
  | utf8EncodingError
  | jsonEncodingError
  | panicName
  | restart
deriving DecidableEq, Repr

structure Error where
  name : ErrorName
  message : String
  lineNo : Nat
  x : Nat
  inputLineNo : Nat
  inputX : Nat
deriving DecidableEq, Repr

/-- An opener record (`Paren`); the `closer` / `children` fields are guarded
by `return_parens` (always `false` through the public API) and omitted. -/
structure Paren where
  inputLineNo : Nat
  inputX : Nat
  lineNo : Nat
  x : Nat
  ch : String
  indentDelta : Int
  maxChildIndent : Option Nat
  argX : Option Nat
deriving DecidableEq, Repr

structure ParenTrail where
  lineNo : Nat
  startX : Nat
  endX : Nat
deriving DecidableEq, Repr

structure TabStop where
  ch : String
  x : Nat
  lineNo : Nat
  argX : Option Nat
deriving DecidableEq, Repr

/-- An external edit record. -/
structure Change where
  x : Nat
  lineNo : Nat
  oldText : String
  newText : String
deriving DecidableEq, Repr

structure TransformedChange where
  oldEndX : Nat
  newEndX : Nat
  lookupLineNo : Nat
  lookupX : Nat
deriving DecidableEq, Repr

/-- The caller-supplied options.  `prev_text` (which triggers the external
diff collaborator) is kept; the diff itself is out of scope per the spec. -/
structure Options where
  cursorX : Option Nat := none
  cursorLine : Option Nat := none
  prevCursorX : Option Nat := none
  prevCursorLine : Option Nat := none
  selectionStartLine : Option Nat := none
  changes : List Change := []
  prevText : Option String := none
  commentChar : String := SEMICOLON
  lispVlineSymbols : Bool := false
  lispBlockComments : Bool := false
  guileBlockComments : Bool := false
  schemeSexpComments : Bool := false
  janetLongStrings : Bool := false
deriving DecidableEq, Repr

def defaultOptions : Options := {}

inductive Mode where
  | indent
  | paren
deriving DecidableEq, Repr

inductive TrackingArgTabStop where
  | notSearching
  | space
  | arg
deriving DecidableEq, Repr

inductive Now where
  | normal
  | escaping
  | escaped
deriving DecidableEq, Repr

/-- The lexical context (`enum In`). -/
inductive In where
  | code
  | comment
  | stringCtx (delim : String)
  | lispReaderSyntax
  | lispBlockCommentPre (depth : Nat)
  | lispBlockComment (depth : Nat)
  | lispBlockCommentPost (depth : Nat)
  | guileBlockComment
  | guileBlockCommentPost
  | janetLongStringPre (openDelimLen : Nat)
  | janetLongString (openDelimLen : Nat) (closeDelimLen : Nat)
deriving DecidableEq, Repr

structure ParenTrailClamped where
  startX : Option Nat
  endX : Option Nat
  openers : List Paren
deriving DecidableEq, Repr

structure InternalParenTrail where
  lineNo : Option Nat
  startX : Option Nat
  endX : Option Nat
  openers : List Paren
  clamped : ParenTrailClamped
deriving DecidableEq, Repr

/-- The processing state (`struct State`).  Field order follows the source;
`return_parens` and the `parens` output it guards are omitted (dead code for
the public API), `partial_result` is kept as `isPartialResult`. -/
structure State where
  mode : Mode
  smart : Bool

  origText : String
  origCursorX : Nat
  origCursorLine : Nat

  inputLines : List String
  inputLineNo : Nat
  inputX : Nat

  lineNo : Nat
  ch : String
  x : Nat
  indentX : Nat

  cursorX : Nat
  cursorLine : Nat
  prevCursorX : Nat
  prevCursorLine : Nat

  selectionStartLine : Nat

  context : In
  commentX : Nat
  escape : Now

  lispVlineSymbolsEnabled : Bool
  lispReaderSyntaxEnabled : Bool
  lispBlockCommentsEnabled : Bool
  guileBlockCommentsEnabled : Bool
  schemeSexpCommentsEnabled : Bool
  janetLongStringsEnabled : Bool

  quoteDanger : Bool
  trackingIndent : Bool
  skipChar : Bool
  success : Bool
  isPartialResult : Bool
  forceBalance : Bool

  commentChar : String

  maxIndent : Option Nat
  indentDelta : Int

  trackingArgTabStop : TrackingArgTabStop

  error : Option Error
  errorPosCache : List (ErrorName × Error)

  lines : List String

  parenStack : List Paren

  tabStops : List TabStop

  parenTrail : InternalParenTrail
  parenTrails : List ParenTrail

  changes : List ((Nat × Nat) × TransformedChange)
deriving Repr

/-- `is_escaping` / `is_escaped` / context predicates. -/
def State.isEscaping (s : State) : Bool := s.escape = Now.escaping

def State.isEscaped (s : State) : Bool := s.escape = Now.escaped

def State.isInCode (s : State) : Bool :=
  match s.context with
  | In.code => true
  | In.lispReaderSyntax => true
  | _ => false

def State.isInComment (s : State) : Bool :=
  match s.context with
  | In.comment => true
  | _ => false

def State.isInStringish (s : State) : Bool :=
  match s.context with
  | In.stringCtx _ => true
  | In.lispBlockCommentPre _ => true
  | In.lispBlockComment _ => true
  | In.lispBlockCommentPost _ => true
  | In.guileBlockComment => true
  | In.guileBlockCommentPost => true
  | In.janetLongStringPre _ => true
  | In.janetLongString _ _ => true
  | _ => false

/-! ## The transformed-changes map -/

/-- `transform_change`: precompute a change's old/new end columns and its
lookup key (the end of the new text). -/
def transformChange (change : Change) : TransformedChange :=
  let newLines := splitLines change.newText
  let oldLines := splitLines change.oldText
  let lastOldLineLen := strWidth (oldLines.getLast?.getD "")
  let lastNewLineLen := strWidth (newLines.getLast?.getD "")
  let oldEndX := (if oldLines.length = 1 then change.x else 0) + lastOldLineLen
  let newEndX := (if newLines.length = 1 then change.x else 0) + lastNewLineLen
  let newEndLineNo := change.lineNo + (newLines.length - 1)
  { oldEndX := oldEndX, newEndX := newEndX,
    lookupLineNo := newEndLineNo, lookupX := newEndX }

/-- Association-list model of `HashMap::insert` (overwrite the key). -/
def mapInsert {α β : Type} [DecidableEq α] (m : List (α × β)) (k : α) (v : β) :
    List (α × β) :=
  (k, v) :: m.filter (fun p => p.1 ≠ k)

def mapGet {α β : Type} [DecidableEq α] (m : List (α × β)) (k : α) : Option β :=
  (m.find? (fun p => p.1 = k)).map Prod.snd

def mapRemove {α β : Type} [DecidableEq α] (m : List (α × β)) (k : α) :
    List (α × β) :=
  m.filter (fun p => p.1 ≠ k)

def transformChanges (changes : List Change) :
    List ((Nat × Nat) × TransformedChange) :=
  changes.foldl (fun m change =>
    let tc := transformChange change
    mapInsert m (tc.lookupLineNo, tc.lookupX) tc) []

/-! ## Initial state -/

def initialParenTrail : InternalParenTrail :=
  { lineNo := none, startX := none, endX := none, openers := [],
    clamped := { startX := none, endX := none, openers := [] } }

/-- `get_initial_result`.  The extern `state_init` call is modelled from the
spec: it records the original input text in the state. -/
def getInitialResult (text : String) (inputLines : List String)
    (options : Options) (mode : Mode) (smart : Bool) : State :=
  let lispReaderSyntaxEnabled :=
    options.lispBlockComments || options.guileBlockComments ||
      options.schemeSexpComments
  { mode := mode
    smart := smart
    origText := text
    origCursorX := columnFromOption options.cursorX
    origCursorLine := lineNumberFromOption options.cursorLine
    inputLines := inputLines
    inputLineNo := 0
    inputX := 0
    lines := []
    lineNo := NO_LINE_NUMBER
    ch := ""
    x := 0
    indentX := NO_COLUMN
    parenStack := []
    tabStops := []
    parenTrail := initialParenTrail
    parenTrails := []
    cursorX := columnFromOption options.cursorX
    cursorLine := lineNumberFromOption options.cursorLine
    prevCursorX := columnFromOption options.prevCursorX
    prevCursorLine := lineNumberFromOption options.prevCursorLine
    selectionStartLine := NO_LINE_NUMBER
    changes := transformChanges options.changes
    context := In.code
    commentX := NO_COLUMN
    escape := Now.normal
    lispVlineSymbolsEnabled := options.lispVlineSymbols
    lispReaderSyntaxEnabled := lispReaderSyntaxEnabled
    lispBlockCommentsEnabled := options.lispBlockComments
    guileBlockCommentsEnabled := options.guileBlockComments
    schemeSexpCommentsEnabled := options.schemeSexpComments
    janetLongStringsEnabled := options.janetLongStrings
    quoteDanger := false
    trackingIndent := false
    skipChar := false
    success := false
    isPartialResult := false
    forceBalance := false
    commentChar := options.commentChar
    maxIndent := none
    indentDelta := 0
    trackingArgTabStop := TrackingArgTabStop.notSearching
    error := none
    errorPosCache := [] }

/-! ## Errors -/

def errorMessage (e : ErrorName) : String :=
  match e with
  | ErrorName.quoteDanger => "Quotes must balanced inside comment blocks."
  | ErrorName.eolBackslash => "Line cannot end in a hanging backslash."
  | ErrorName.unclosedQuote => "String is missing a closing quote."
  | ErrorName.unclosedParen => "Unclosed open-paren."
  | ErrorName.unmatchedCloseParen => "Unmatched close-paren."
  | ErrorName.unmatchedOpenParen => "Unmatched open-paren."
  | ErrorName.leadingCloseParen => "Line cannot lead with a close-paren."
  | ErrorName.utf8EncodingError => "UTF8 encoded incorrectly."
  | ErrorName.jsonEncodingError => "JSON encoded incorrectly."
  | ErrorName.panicName => "Internal error (please report!)"
  | ErrorName.restart => "Restart requested (you shouldn't see this)."

def cacheErrorPos (result : State) (name : ErrorName) : State :=
  let e : Error :=
    { name := name, message := "", lineNo := result.lineNo, x := result.x,
      inputLineNo := result.inputLineNo, inputX := result.inputX }
  { result with errorPosCache := mapInsert result.errorPosCache name e }

/-- The error value `error(result, name)` builds (it always returns `Err`). -/
def mkError (result : State) (name : ErrorName) : Error :=
  let pos : Nat × Nat :=
    match result.isPartialResult, mapGet result.errorPosCache name with
    | true, some cache => (cache.lineNo, cache.x)
    | false, some cache => (cache.inputLineNo, cache.inputX)
    | true, none => (result.lineNo, result.x)
    | false, none => (result.inputLineNo, result.inputX)
  let e : Error :=
    { name := name, lineNo := pos.1, x := pos.2,
      message := errorMessage name,
      inputLineNo := result.inputLineNo, inputX := result.inputX }
  if name = ErrorName.unclosedParen then
    match peek result.parenStack 0 with
    | some opener =>
      { e with
        lineNo := if result.isPartialResult then opener.lineNo else opener.inputLineNo,
        x := if result.isPartialResult then opener.x else opener.inputX }
    | none => e
  else e

/-- `error(result, name)?` — always propagates, carrying the state as
mutated so far. -/
def errorF (result : State) (name : ErrorName) : Except (Error × State) State :=
  Except.error (mkError result name, result)

/-! ## Line operations -/

def isCursorAffected (result : State) (start stop : Nat) : Bool :=
  if result.cursorX = NO_COLUMN then false
  else if result.cursorX = start ∧ result.cursorX = stop then result.cursorX = 0
  else result.cursorX ≥ stop

def shiftCursorOnEdit (result : State) (lineNo start stop : Nat)
    (replace : String) : State :=
  let oldLength := stop - start
  let newLength := strWidth replace
  let dx : Int := (newLength : Int) - (oldLength : Int)
  if result.cursorX ≠ NO_COLUMN ∧ result.cursorLine ≠ NO_LINE_NUMBER ∧ dx ≠ 0 ∧
      result.cursorLine = lineNo ∧ isCursorAffected result start stop then
    { result with cursorX := intToUsize ((result.cursorX : Int) + dx) }
  else result

def replaceWithinLine (result : State) (lineNo start stop : Nat)
    (replace : String) : State :=
  let line := (result.lines.get? lineNo).getD ""
  let newLine := replaceWithinString line start stop replace
  let result := { result with lines := result.lines.set lineNo newLine }
  shiftCursorOnEdit result lineNo start stop replace

def insertWithinLine (result : State) (lineNo idx : Nat) (insert : String) : State :=
  replaceWithinLine result lineNo idx idx insert

def initLine (result : State) : State :=
  { result with
    x := 0
    lineNo := (result.lineNo + 1) % USIZE_MOD
    indentX := NO_COLUMN
    commentX := NO_COLUMN
    indentDelta := 0
    errorPosCache :=
      mapRemove (mapRemove (mapRemove result.errorPosCache
        ErrorName.unmatchedCloseParen) ErrorName.unmatchedOpenParen)
        ErrorName.leadingCloseParen
    trackingArgTabStop := TrackingArgTabStop.notSearching
    trackingIndent := !result.isInStringish }

def commitChar (result : State) (origCh : String) : State :=
  let chWidth := strWidth result.ch
  let result :=
    if origCh ≠ result.ch then
      let origChWidth := strWidth origCh
      let result := replaceWithinLine result result.lineNo result.x
        (result.x + origChWidth) result.ch
      { result with
        indentDelta := result.indentDelta - ((origChWidth : Int) - (chWidth : Int)) }
    else result
  { result with x := result.x + chWidth }

/-! ## Questions about characters -/

def isValidCloseParen (parenStack : List Paren) (ch : String) : Bool :=
  if parenStack.isEmpty then false
  else
    match peek parenStack 0, matchParen ch with
    | some paren, some close => paren.ch = close
    | _, _ => false

def isWhitespace (result : State) : Bool :=
  !result.isEscaped && (result.ch = BLANK_SPACE || result.ch = DOUBLE_SPACE)

def isClosable (result : State) : Bool :=
  let ch := result.ch
  let closer := rustIsCloseParen ch && !result.isEscaped
  result.isInCode && !isWhitespace result && ch ≠ "" && !closer

/-! ## Advanced operations on characters -/

/-- `check_cursor_holding`; the `unwrap` of the stack top is guarded at the
sole call site by `is_valid_close_paren`, so the empty case is unreachable
(modelled as "not holding"). -/
def checkCursorHolding (result : State) : Except (Error × State) Bool :=
  match peek result.parenStack 0 with
  | none => Except.ok false
  | some opener =>
    let holdMinX := ((peek result.parenStack 1).map (fun p => p.x + 1)).getD 0
    let holdMaxX := opener.x
    let holding :=
      result.cursorLine = opener.lineNo ∧ result.cursorX ≠ NO_COLUMN ∧
        holdMinX ≤ result.cursorX ∧ result.cursorX ≤ holdMaxX
    let shouldCheckPrev :=
      result.changes.isEmpty ∧ result.prevCursorLine ≠ NO_LINE_NUMBER
    if shouldCheckPrev then
      let prevHolding :=
        result.prevCursorLine = opener.lineNo ∧ result.prevCursorX ≠ NO_COLUMN ∧
          holdMinX ≤ result.prevCursorX ∧ result.prevCursorX ≤ holdMaxX
      if prevHolding ∧ ¬holding then
        Except.error
          ({ name := ErrorName.restart, x := 0, inputLineNo := 0, inputX := 0,
             lineNo := 0, message := "" }, result)
      else Except.ok holding
    else Except.ok holding

/-- `track_arg_tab_stop`; the `last_mut().unwrap()` is only reached with a
non-empty stack (an opener is being tracked), the empty case is a no-op. -/
def trackArgTabStop (result : State) (state : TrackingArgTabStop) : State :=
  if state = TrackingArgTabStop.space then
    if result.isInCode ∧ isWhitespace result then
      { result with trackingArgTabStop := TrackingArgTabStop.arg }
    else result
  else if state = TrackingArgTabStop.arg then
    if ¬isWhitespace result then
      match result.parenStack.getLast? with
      | some opener =>
        { result with
          parenStack := result.parenStack.dropLast ++
            [{ opener with argX := some result.x }]
          trackingArgTabStop := TrackingArgTabStop.notSearching }
      | none => result
    else result
  else result

/-! ## Paren-trail basics needed by the character events -/

def resetParenTrail (result : State) (lineNo x : Nat) : State :=
  { result with
    parenTrail :=
      { lineNo := some lineNo, startX := some x, endX := some x, openers := [],
        clamped := { startX := none, endX := none, openers := [] } } }

/-! ## Literal character events -/

def inCodeOnOpenParen (result : State) : State :=
  let opener : Paren :=
    { inputLineNo := result.inputLineNo
      inputX := result.inputX
      lineNo := result.lineNo
      x := result.x
      ch := result.ch
      indentDelta := result.indentDelta
      maxChildIndent := none
      argX := none }
  { result with
    parenStack := result.parenStack ++ [opener]
    trackingArgTabStop := TrackingArgTabStop.space }

def inCodeOnMatchedCloseParen (result : State) : Except (Error × State) State := do
  match peek result.parenStack 0 with
  | none => pure result
  | some opener =>
    let result :=
      { result with
        parenTrail :=
          { result.parenTrail with
            endX := some (result.x + 1)
            openers := result.parenTrail.openers ++ [opener] } }
    let result ←
      if result.mode = Mode.indent ∧ result.smart then do
        let holding ← checkCursorHolding result
        if holding then
          let origStartX := result.parenTrail.startX
          let origEndX := result.parenTrail.endX
          let origOpeners := result.parenTrail.openers
          let result := resetParenTrail result result.lineNo (result.x + 1)
          pure { result with
                 parenTrail :=
                   { result.parenTrail with
                     clamped :=
                       { startX := origStartX, endX := origEndX,
                         openers := origOpeners } } }
        else pure result
      else pure result
    pure { result with
           parenStack := result.parenStack.dropLast
           trackingArgTabStop := TrackingArgTabStop.notSearching }

def inCodeOnUnmatchedCloseParen (result : State) : Except (Error × State) State := do
  let result ←
    match result.mode with
    | Mode.paren =>
      let inLeadingParenTrail :=
        result.parenTrail.lineNo = some result.lineNo ∧
          result.parenTrail.startX = columnToOption result.indentX
      let canRemove := result.smart ∧ inLeadingParenTrail
      if ¬canRemove then errorF result ErrorName.unmatchedCloseParen
      else pure result
    | Mode.indent =>
      if (mapGet result.errorPosCache ErrorName.unmatchedCloseParen).isNone then
        let result := cacheErrorPos result ErrorName.unmatchedCloseParen
        match peek result.parenStack 0 with
        | some opener =>
          let result := cacheErrorPos result ErrorName.unmatchedOpenParen
          pure { result with
                 errorPosCache :=
                   match mapGet result.errorPosCache ErrorName.unmatchedOpenParen with
                   | some err =>
                     mapInsert result.errorPosCache ErrorName.unmatchedOpenParen
                       { err with inputLineNo := opener.inputLineNo,
                                  inputX := opener.inputX }
                   | none => result.errorPosCache }
        | none => pure result
      else pure result
  pure { result with ch := "" }

def inCodeOnCloseParen (result : State) : Except (Error × State) State :=
  if isValidCloseParen result.parenStack result.ch then
    inCodeOnMatchedCloseParen result
  else
    inCodeOnUnmatchedCloseParen result

def inCodeOnTab (result : State) : State := { result with ch := DOUBLE_SPACE }

def inCodeOnCommentChar (result : State) : State :=
  { result with
    context := In.comment
    commentX := result.x
    trackingArgTabStop := TrackingArgTabStop.notSearching }

def onNewline (result : State) : State :=
  let result :=
    if result.isInComment then { result with context := In.code } else result
  { result with ch := "" }

def inCodeOnQuote (result : State) : State :=
  let result := { result with context := In.stringCtx result.ch }
  cacheErrorPos result ErrorName.unclosedQuote

def inCommentOnQuote (result : State) : State :=
  let result := { result with quoteDanger := !result.quoteDanger }
  if result.quoteDanger then cacheErrorPos result ErrorName.quoteDanger else result

def inStringOnQuote (result : State) (delim : String) : State :=
  if delim = result.ch then { result with context := In.code } else result

def inCodeOnNsign (result : State) : State :=
  { result with context := In.lispReaderSyntax }

def inLispReaderSyntaxOnVline (result : State) : State :=
  { result with context := In.lispBlockComment 1 }

def inLispReaderSyntaxOnBang (result : State) : State :=
  { result with context := In.guileBlockComment }

def inLispReaderSyntaxOnSemicolon (result : State) : State :=
  { result with context := In.code }

def inLispBlockCommentPreOnVline (result : State) (depth : Nat) : State :=
  { result with context := In.lispBlockComment (depth + 1) }

def inLispBlockCommentPreOnElse (result : State) (depth : Nat) : State :=
  { result with context := In.lispBlockComment depth }

def inLispBlockCommentOnNsign (result : State) (depth : Nat) : State :=
  { result with context := In.lispBlockCommentPre depth }

def inLispBlockCommentOnVline (result : State) (depth : Nat) : State :=
  { result with context := In.lispBlockCommentPost depth }

def inLispBlockCommentPostOnNsign (result : State) (depth : Nat) : State :=
  let depth := depth - 1
  if depth > 0 then { result with context := In.lispBlockComment depth }
  else { result with context := In.code }

def inLispBlockCommentPostOnElse (result : State) (depth : Nat) : State :=
  { result with context := In.lispBlockComment depth }

def inGuileBlockCommentOnBang (result : State) : State :=
  { result with context := In.guileBlockCommentPost }

def inGuileBlockCommentPostOnNsign (result : State) : State :=
  { result with context := In.code }

def inGuileBlockCommentPostOnElse (result : State) : State :=
  { result with context := In.guileBlockComment }

def inCodeOnGrave (result : State) : State :=
  let result := { result with context := In.janetLongStringPre 1 }
  cacheErrorPos result ErrorName.unclosedQuote

def inJanetLongStringPreOnGrave (result : State) (openDelimLen : Nat) : State :=
  { result with context := In.janetLongStringPre (openDelimLen + 1) }

def inJanetLongStringPreOnElse (result : State) (openDelimLen : Nat) : State :=
  { result with context := In.janetLongString openDelimLen 0 }

def inJanetLongStringOnGrave (result : State) (openDelimLen closeDelimLen : Nat) :
    State :=
  let closeDelimLen := closeDelimLen + 1
  if openDelimLen = closeDelimLen then { result with context := In.code }
  else { result with context := In.janetLongString openDelimLen closeDelimLen }

def inJanetLongStringOnElse (result : State) (openDelimLen closeDelimLen : Nat) :
    State :=
  if closeDelimLen > 0 then
    { result with context := In.janetLongString openDelimLen 0 }
  else result

def onBackslash (result : State) : State := { result with escape := Now.escaping }

def afterBackslash (result : State) : Except (Error × State) State :=
  let result := { result with escape := Now.escaped }
  if result.ch = NEWLINE then
    if result.isInCode then errorF result ErrorName.eolBackslash
    else Except.ok result
  else Except.ok result

/-! ## Character dispatch -/

/-- The `In::Code` arm of `on_context`.  The `LispReaderSyntax` arm's
"backtrack" (set the context to `Code` and re-dispatch) re-enters exactly
this arm, so it is split out to keep `on_context` non-recursive. -/
def onContextCode (result : State) : Except (Error × State) State :=
  let ch := result.ch
  if ch = result.commentChar then Except.ok (inCodeOnCommentChar result)
  else if ch = OPEN_PAREN ∨ ch = OPEN_BRACKET ∨ ch = OPEN_BRACE then
    Except.ok (inCodeOnOpenParen result)
  else if ch = CLOSE_PAREN ∨ ch = CLOSE_BRACKET ∨ ch = CLOSE_BRACE then
    inCodeOnCloseParen result
  else if ch = DOUBLE_QUOTE then Except.ok (inCodeOnQuote result)
  else if ch = VERTICAL_LINE ∧ result.lispVlineSymbolsEnabled then
    Except.ok (inCodeOnQuote result)
  else if ch = NUMBER_SIGN ∧ result.lispReaderSyntaxEnabled then
    Except.ok (inCodeOnNsign result)
  else if ch = GRAVE ∧ result.janetLongStringsEnabled then
    Except.ok (inCodeOnGrave result)
  else if ch = TAB then Except.ok (inCodeOnTab result)
  else Except.ok result

def onContext (result : State) : Except (Error × State) State :=
  let ch := result.ch
  match result.context with
  | In.code => onContextCode result
  | In.comment =>
    if ch = DOUBLE_QUOTE then Except.ok (inCommentOnQuote result)
    else if ch = VERTICAL_LINE ∧ result.lispVlineSymbolsEnabled then
      Except.ok (inCommentOnQuote result)
    else if ch = GRAVE ∧ result.janetLongStringsEnabled then
      Except.ok (inCommentOnQuote result)
    else Except.ok result
  | In.stringCtx delim =>
    if ch = DOUBLE_QUOTE then Except.ok (inStringOnQuote result delim)
    else if ch = VERTICAL_LINE ∧ result.lispVlineSymbolsEnabled then
      Except.ok (inStringOnQuote result delim)
    else Except.ok result
  | In.lispReaderSyntax =>
    if ch = VERTICAL_LINE ∧ result.lispBlockCommentsEnabled then
      Except.ok (inLispReaderSyntaxOnVline result)
    else if ch = BANG ∧ result.guileBlockCommentsEnabled then
      Except.ok (inLispReaderSyntaxOnBang result)
    else if ch = SEMICOLON ∧ result.schemeSexpCommentsEnabled then
      Except.ok (inLispReaderSyntaxOnSemicolon result)
    else
      -- Backtrack!
      onContextCode { result with context := In.code }
  | In.lispBlockCommentPre depth =>
    if ch = VERTICAL_LINE then Except.ok (inLispBlockCommentPreOnVline result depth)
    else Except.ok (inLispBlockCommentPreOnElse result depth)
  | In.lispBlockComment depth =>
    if ch = NUMBER_SIGN then Except.ok (inLispBlockCommentOnNsign result depth)
    else if ch = VERTICAL_LINE then
      Except.ok (inLispBlockCommentOnVline result depth)
    else Except.ok result
  | In.lispBlockCommentPost depth =>
    if ch = NUMBER_SIGN then Except.ok (inLispBlockCommentPostOnNsign result depth)
    else Except.ok (inLispBlockCommentPostOnElse result depth)
  | In.guileBlockComment =>
    if ch = BANG then Except.ok (inGuileBlockCommentOnBang result)
    else Except.ok result
  | In.guileBlockCommentPost =>
    if ch = NUMBER_SIGN then Except.ok (inGuileBlockCommentPostOnNsign result)
    else Except.ok (inGuileBlockCommentPostOnElse result)
  | In.janetLongStringPre openDelimLen =>
    if ch = GRAVE then Except.ok (inJanetLongStringPreOnGrave result openDelimLen)
    else Except.ok (inJanetLongStringPreOnElse result openDelimLen)
  | In.janetLongString openDelimLen closeDelimLen =>
    if ch = GRAVE then
      Except.ok (inJanetLongStringOnGrave result openDelimLen closeDelimLen)
    else Except.ok (inJanetLongStringOnElse result openDelimLen closeDelimLen)

/-- The closable-check / arg-tab-stop tail of `on_char`, after the
dispatch. -/
def onCharTail (result : State) : State :=
  let ch := result.ch
  let result :=
    if isClosable result then
      resetParenTrail result result.lineNo (result.x + strWidth ch)
    else result
  let state := result.trackingArgTabStop
  if state ≠ TrackingArgTabStop.notSearching then trackArgTabStop result state
  else result

def onChar (result : State) : Except (Error × State) State := do
  let result :=
    if result.isEscaped then { result with escape := Now.normal } else result
  let result ←
    if result.isEscaping then afterBackslash result
    else if result.ch = BACKSLASH then Except.ok (onBackslash result)
    else if result.ch = NEWLINE then Except.ok (onNewline result)
    else onContext result
  pure (onCharTail result)

/-! ## Cursor functions -/

def isCursorLeftOf (cursorX : Option Nat) (cursorLine : Option Nat)
    (x : Option Nat) (lineNo : Nat) : Bool :=
  match x, cursorX with
  | some x, some cursorX => cursorLine = some lineNo ∧ cursorX ≤ x
  | _, _ => false

def isCursorRightOf (cursorX : Option Nat) (cursorLine : Option Nat)
    (x : Option Nat) (lineNo : Nat) : Bool :=
  match x, cursorX with
  | some x, some cursorX => cursorLine = some lineNo ∧ cursorX > x
  | _, _ => false

def isCursorInComment (result : State) (cursorX : Option Nat)
    (cursorLine : Option Nat) : Bool :=
  isCursorRightOf cursorX cursorLine (columnToOption result.commentX) result.lineNo

def handleChangeDelta (result : State) : State :=
  if ¬result.changes.isEmpty ∧ (result.smart ∨ result.mode = Mode.paren) then
    match mapGet result.changes (result.inputLineNo, result.inputX) with
    | some change =>
      { result with
        indentDelta := result.indentDelta +
          ((change.newEndX : Int) - (change.oldEndX : Int)) }
    | none => result
  else result

/-! ## Paren-trail functions -/

def isCursorClampingParenTrail (result : State) (cursorX : Option Nat)
    (cursorLine : Option Nat) : Bool :=
  isCursorRightOf cursorX cursorLine result.parenTrail.startX result.lineNo &&
    !isCursorInComment result cursorX cursorLine

/-- INDENT MODE: allow the cursor to clamp the paren trail. -/
def clampParenTrailToCursor (result : State) : State :=
  let clamping := isCursorClampingParenTrail result (columnToOption result.cursorX)
    (lineNumberToOption result.cursorLine)
  if clamping then
    let startX := (result.parenTrail.startX).getD 0
    let endX := (result.parenTrail.endX).getD 0
    let newStartX := max startX result.cursorX
    let newEndX := max endX result.cursorX
    let line := (result.lines.get? result.lineNo).getD ""
    let removeCount :=
      ((withColumns (graphemesOf line)).filter (fun p =>
        ¬(p.1 < startX ∨ p.1 ≥ newStartX) ∧ rustIsCloseParen p.2)).length
    let openers := result.parenTrail.openers
    { result with
      parenTrail :=
        { result.parenTrail with
          openers := openers.drop removeCount
          startX := some newStartX
          endX := some newEndX
          clamped :=
            { startX := some startX, endX := some endX,
              openers := openers.take removeCount } } }
  else result

/-- Move the remaining trail openers back onto the stack (most recent first,
i.e. the `openers` list reversed), as if they were never closed. -/
def popParenTrail (result : State) : State :=
  if result.parenTrail.startX = result.parenTrail.endX then result
  else
    { result with
      parenStack := result.parenStack ++ result.parenTrail.openers.reverse
      parenTrail := { result.parenTrail with openers := [] } }

/-- The loop body of `get_parent_opener_index`, recursing on the number of
stack entries left to inspect; returns the chosen index together with the
state (whose stack an "adoption" may have updated). -/
def getParentOpenerIndexGo (result : State) (indentX : Nat) :
    Nat → Nat → Nat × State
  | _, 0 => (result.parenStack.length, result)
  | i, fuel + 1 =>
    match peek result.parenStack i with
    | none => (result.parenStack.length, result)
    | some opener =>
      let openerIndex := result.parenStack.length - i - 1
      let currOutside := opener.x < indentX
      let prevIndentX : Int := (indentX : Int) - result.indentDelta
      let prevOutside := ((opener.x : Int) - opener.indentDelta) < prevIndentX
      if prevOutside ∧ currOutside then (i, result)
      else if ¬prevOutside ∧ ¬currOutside then
        getParentOpenerIndexGo result indentX (i + 1) fuel
      else if prevOutside ∧ ¬currOutside then
        -- POSSIBLE FRAGMENTATION: prevent it when the line's delta is 0,
        -- allow it when the opener's delta is 0 and by default (the
        -- source's TODO case).
        if result.indentDelta = 0 then (i, result)
        else getParentOpenerIndexGo result indentX (i + 1) fuel
      else
        -- POSSIBLE ADOPTION
        let nextOpener := peek result.parenStack (i + 1)
        let isParent :=
          match nextOpener with
          | some no =>
            if no.indentDelta ≤ opener.indentDelta then
              -- disallow adoption only if the next opener's delta will
              -- actually keep indent_x inside this opener's threshold
              decide ((indentX : Int) + no.indentDelta > (opener.x : Int))
            else
              -- no.indentDelta > opener.indentDelta: allow adoption
              true
          | none =>
            decide (result.indentDelta > opener.indentDelta)
        if isParent then
          -- new parent: clear indentDelta, reserved for previous child lines
          (i, { result with
                parenStack := result.parenStack.set openerIndex
                  { opener with indentDelta := 0 } })
        else getParentOpenerIndexGo result indentX (i + 1) fuel

def getParentOpenerIndex (result : State) (indentX : Nat) : Nat × State :=
  getParentOpenerIndexGo result indentX 0 result.parenStack.length

def setMaxIndent (result : State) (opener : Paren) : State :=
  match result.parenStack.getLast? with
  | some parent =>
    { result with
      parenStack := result.parenStack.dropLast ++
        [{ parent with maxChildIndent := some opener.x }] }
  | none => { result with maxIndent := some opener.x }

def rememberParenTrail (result : State) : State :=
  if result.parenTrail.clamped.openers.length > 0 ∨
      result.parenTrail.openers.length > 0 then
    let isClamped := result.parenTrail.clamped.startX ≠ none
    let shortTrail : ParenTrail :=
      { lineNo := (result.parenTrail.lineNo).getD 0
        startX := ((if isClamped then result.parenTrail.clamped.startX
                    else result.parenTrail.startX)).getD 0
        endX := ((if isClamped then result.parenTrail.clamped.endX
                  else result.parenTrail.endX)).getD 0 }
    { result with parenTrails := result.parenTrails ++ [shortTrail] }
  else result

def updateRememberedParenTrail (result : State) : State :=
  match result.parenTrails.getLast? with
  | none => rememberParenTrail result
  | some trail =>
    if some trail.lineNo ≠ result.parenTrail.lineNo then rememberParenTrail result
    else
      { result with
        parenTrails := result.parenTrails.dropLast ++
          [{ trail with endX := (result.parenTrail.endX).getD 0 }] }

/-- The pop-and-emit loop of `correct_paren_trail` (`index` iterations):
pop an opener off the stack, append it to the trail's openers, and append
its matching close bracket to the accumulated `parens` string. -/
def correctParenTrailLoop (result : State) (parens : String) :
    Nat → State × String
  | 0 => (result, parens)
  | n + 1 =>
    match result.parenStack.getLast? with
    | none => (result, parens)
    | some opener =>
      let closeCh := (matchParen opener.ch).getD ""
      let result :=
        { result with
          parenStack := result.parenStack.dropLast
          parenTrail :=
            { result.parenTrail with
              openers := result.parenTrail.openers ++ [opener] } }
      correctParenTrailLoop result (parens ++ closeCh) n

/-- INDENT MODE: correct the paren trail from the indentation. -/
def correctParenTrail (result : State) (indentX : Nat) : State :=
  let ir := getParentOpenerIndex result indentX
  let sp := correctParenTrailLoop ir.2 "" ir.1
  let result := sp.1
  let parens := sp.2
  match result.parenTrail.lineNo with
  | some lineNo =>
    let startX := (result.parenTrail.startX).getD 0
    let endX := (result.parenTrail.endX).getD 0
    let result := replaceWithinLine result lineNo startX endX parens
    let result :=
      { result with
        parenTrail :=
          { result.parenTrail with
            endX := result.parenTrail.startX.map (fun x => x + parens.length) } }
    rememberParenTrail result
  | none => result

def cleanParenTrail (result : State) : State :=
  let startX := result.parenTrail.startX
  let endX := result.parenTrail.endX
  if startX = endX ∨ some result.lineNo ≠ result.parenTrail.lineNo then result
  else
    let startX := startX.getD 0
    let endX := endX.getD 0
    let line := (result.lines.get? result.lineNo).getD ""
    let inRange := (withColumns (graphemesOf line)).filter
      (fun p => ¬(p.1 < startX ∨ p.1 ≥ endX))
    let newTrail := String.join ((inRange.filter
      (fun p => rustIsCloseParen p.2)).map Prod.snd)
    let spaceCount := (inRange.filter (fun p => ¬rustIsCloseParen p.2)).length
    if spaceCount > 0 then
      let result := replaceWithinLine result result.lineNo startX endX newTrail
      { result with
        parenTrail :=
          { result.parenTrail with
            endX := result.parenTrail.endX.map (fun x => x - spaceCount) } }
    else result

def appendParenTrail (result : State) : State :=
  match result.parenStack.getLast? with
  | none => result
  | some opener =>
    let result := { result with parenStack := result.parenStack.dropLast }
    let closeCh := (matchParen opener.ch).getD ""
    let result := setMaxIndent result opener
    let lineNo := (result.parenTrail.lineNo).getD 0
    let endX := (result.parenTrail.endX).getD 0
    let result := insertWithinLine result lineNo endX closeCh
    let result :=
      { result with
        parenTrail :=
          { result.parenTrail with
            endX := result.parenTrail.endX.map (fun x => x + 1)
            openers := result.parenTrail.openers ++ [opener] } }
    updateRememberedParenTrail result

def invalidateParenTrail (result : State) : State :=
  { result with parenTrail := initialParenTrail }

def checkUnmatchedOutsideParenTrail (result : State) :
    Except (Error × State) State :=
  let doError :=
    match mapGet result.errorPosCache ErrorName.unmatchedCloseParen with
    | some cache =>
      (result.parenTrail.startX.map (fun x => decide (cache.x < x))).getD false
    | none => false
  if doError then errorF result ErrorName.unmatchedCloseParen
  else Except.ok result

def finishNewParenTrail (result : State) : State :=
  if result.isInStringish then invalidateParenTrail result
  else if result.mode = Mode.indent then
    popParenTrail (clampParenTrailToCursor result)
  else
    let result :=
      match peek result.parenTrail.openers 0 with
      | some paren => setMaxIndent result paren
      | none => result
    let result :=
      if result.lineNo ≠ result.cursorLine then cleanParenTrail result else result
    rememberParenTrail result

/-! ## Indentation functions -/

def addIndent (result : State) (delta : Int) : State :=
  let origIndent := result.x
  let newIndent := intToUsize ((origIndent : Int) + delta)
  let indentStr := repeatString BLANK_SPACE newIndent
  let result := replaceWithinLine result result.lineNo 0 origIndent indentStr
  { result with
    x := newIndent
    indentX := newIndent
    indentDelta := result.indentDelta + delta }

/-- Don't add `opener.indent_delta` if the user already added it (happens
when multiple lines are indented together). -/
def shouldAddOpenerIndent (result : State) (opener : Paren) : Bool :=
  opener.indentDelta ≠ result.indentDelta

def correctIndent (result : State) : State :=
  let origIndent : Int := (result.x : Int)
  let mm : Int × Nat × Option Int :=
    match peek result.parenStack 0 with
    | some opener =>
      (origIndent +
         (if shouldAddOpenerIndent result opener then opener.indentDelta else 0),
       opener.x + 1,
       opener.maxChildIndent.map (fun x => (x : Int)))
    | none => (origIndent, 0, result.maxIndent.map (fun x => (x : Int)))
  let newIndent := clamp mm.1 (some (mm.2.1 : Int)) mm.2.2
  if newIndent ≠ origIndent then addIndent result (newIndent - origIndent)
  else result

/-- The (error-free) mode dispatch of `on_indent`, after its quote-danger
check. -/
def onIndentBody (result : State) : State :=
  match result.mode with
  | Mode.indent =>
    let x := result.x
    let result := correctParenTrail result x
    let toAdd : Option Int :=
      match peek result.parenStack 0 with
      | some opener =>
        if shouldAddOpenerIndent result opener then some opener.indentDelta
        else none
      | none => none
    match toAdd with
    | some adjust => addIndent result adjust
    | none => result
  | Mode.paren => correctIndent result

def onIndent (result : State) : Except (Error × State) State := do
  let result := { result with indentX := result.x, trackingIndent := false }
  let result ←
    if result.quoteDanger then errorF result ErrorName.quoteDanger
    else pure result
  pure (onIndentBody result)

def checkLeadingCloseParen (result : State) : Except (Error × State) State :=
  if (mapGet result.errorPosCache ErrorName.leadingCloseParen).isSome ∧
      result.parenTrail.lineNo = some result.lineNo then
    errorF result ErrorName.leadingCloseParen
  else Except.ok result

def onLeadingCloseParen (result : State) : Except (Error × State) State := do
  match result.mode with
  | Mode.indent =>
    let result ←
      if ¬result.forceBalance then
        if result.smart then errorF result ErrorName.restart
        else if (mapGet result.errorPosCache ErrorName.leadingCloseParen).isNone then
          pure (cacheErrorPos result ErrorName.leadingCloseParen)
        else pure result
      else pure result
    pure { result with skipChar := true }
  | Mode.paren =>
    if ¬isValidCloseParen result.parenStack result.ch then
      if result.smart then pure { result with skipChar := true }
      else errorF result ErrorName.unmatchedCloseParen
    else if isCursorLeftOf (columnToOption result.cursorX)
        (lineNumberToOption result.cursorLine) (some result.x) result.lineNo then
      let result := resetParenTrail result result.lineNo result.x
      onIndent result
    else
      pure { (appendParenTrail result) with skipChar := true }

def onCommentLine (result : State) : State :=
  let parenTrailLength := result.parenTrail.openers.length
  -- restore the openers matching the previous paren trail (pushed via
  -- `peek j` for j = 0, 1, ..., i.e. the openers list reversed)
  let result :=
    if result.mode = Mode.paren then
      { result with
        parenStack := result.parenStack ++ result.parenTrail.openers.reverse }
    else result
  let x := result.x
  let ir := getParentOpenerIndex result x
  let i := ir.1
  let result := ir.2
  let indentToAdd : Int :=
    match peek result.parenStack i with
    | some opener =>
      if shouldAddOpenerIndent result opener then opener.indentDelta else 0
    | none => 0
  let result := if indentToAdd ≠ 0 then addIndent result indentToAdd else result
  -- repop the openers matching the previous paren trail
  if result.mode = Mode.paren then
    { result with
      parenStack := result.parenStack.take
        (result.parenStack.length - parenTrailLength) }
  else result

def checkIndent (result : State) : Except (Error × State) State :=
  if rustIsCloseParen result.ch then onLeadingCloseParen result
  else if result.ch = result.commentChar then
    -- comments don't count as indentation points
    Except.ok { (onCommentLine result) with trackingIndent := false }
  else if result.ch ≠ NEWLINE ∧ result.ch ≠ BLANK_SPACE ∧ result.ch ≠ TAB then
    onIndent result
  else Except.ok result

/-! ## Tab stops -/

def makeTabStop (opener : Paren) : TabStop :=
  { ch := opener.ch, x := opener.x, lineNo := opener.lineNo, argX := opener.argX }

def getTabStopLine (result : State) : Option Nat :=
  (lineNumberToOption result.selectionStartLine).orElse
    (fun _ => lineNumberToOption result.cursorLine)

/-- The `arg_x`-removal loop of `set_tab_stops`: drop an `arg_x` that falls
at or to the right of the next stop's `x`. -/
def removeEclipsedArgXs : List TabStop → List TabStop
  | [] => []
  | [t] => [t]
  | t1 :: t2 :: rest =>
    let t1 :=
      match t1.argX with
      | some prevArgX => if prevArgX ≥ t2.x then { t1 with argX := none } else t1
      | none => t1
    t1 :: removeEclipsedArgXs (t2 :: rest)

def setTabStops (result : State) : State :=
  if getTabStopLine result ≠ some result.lineNo then result
  else
    let tabStops := result.parenStack.map makeTabStop
    let tabStops :=
      if result.mode = Mode.paren then
        tabStops ++ (result.parenTrail.openers.reverse.map makeTabStop)
      else tabStops
    { result with tabStops := removeEclipsedArgXs tabStops }

/-! ## High-level processing functions -/

def processChar (result : State) (ch : String) : Except (Error × State) State := do
  let origCh := ch
  let result := { result with ch := ch, skipChar := false }
  let result := handleChangeDelta result
  let result ←
    if result.trackingIndent then checkIndent result else pure result
  let result ←
    if result.skipChar then pure { result with ch := "" }
    else onChar result
  pure (commitChar result origCh)

/-- The grapheme loop of `process_line`: set `input_x` to each grapheme's
start column and process it. -/
def processGraphemes (result : State) :
    List (Nat × String) → Except (Error × State) State
  | [] => Except.ok result
  | (x, ch) :: rest => do
    let result := { result with inputX := x }
    let result ← processChar result ch
    processGraphemes result rest

def processLine (result : State) (lineNo : Nat) : Except (Error × State) State := do
  let result := initLine result
  let line := (result.inputLines.get? lineNo).getD ""
  let result := { result with lines := result.lines ++ [line] }
  let result := setTabStops result
  let result ← processGraphemes result (withColumns (graphemesOf line))
  let result ← processChar result NEWLINE
  let result ←
    if ¬result.forceBalance then do
      let result ← checkUnmatchedOutsideParenTrail result
      checkLeadingCloseParen result
    else pure result
  let result :=
    if some result.lineNo = result.parenTrail.lineNo then
      finishNewParenTrail result
    else result
  pure result

def finalizeResult (result : State) : Except (Error × State) State := do
  let result ←
    if result.quoteDanger then errorF result ErrorName.quoteDanger
    else pure result
  let result ←
    if result.isInStringish then errorF result ErrorName.unclosedQuote
    else pure result
  let result ←
    if result.parenStack.length ≠ 0 then
      if result.mode = Mode.paren then errorF result ErrorName.unclosedParen
      else pure result
    else pure result
  let result ←
    if result.mode = Mode.indent then do
      let result := initLine result
      onIndent result
    else pure result
  pure { result with success := true }

def processError (result : State) (e : Error) : State :=
  { result with success := false, error := some e }

/-- The per-line driver loop of `process_text`. -/
def processTextLines (result : State) :
    List Nat → Except (Error × State) State
  | [] => Except.ok result
  | i :: rest => do
    let result := { result with inputLineNo := i }
    let result ← processLine result i
    processTextLines result rest

/-- One full pass: initial state, all lines, `finalize_result`. -/
def processTextOnce (text : String) (inputLines : List String)
    (options : Options) (mode : Mode) (smart : Bool) :
    Except (Error × State) State := do
  let result := getInitialResult text inputLines options mode smart
  let result ← processTextLines result (List.range inputLines.length)
  finalizeResult result

/-! ## Public API -/

/-- The public answer.  The `parens` tree (populated only under
`return_parens`, which the public API never sets) is omitted. -/
structure Answer where
  text : String
  cursorX : Option Nat
  cursorLine : Option Nat
  success : Bool
  error : Option Error
  tabStops : List TabStop
  parenTrails : List ParenTrail
deriving DecidableEq, Repr

def publicResult (result : State) : Answer :=
  let lineEnding := getLineEnding result.origText
  if result.success then
    { text := String.intercalate lineEnding result.lines
      cursorX := columnToOption result.cursorX
      cursorLine := lineNumberToOption result.cursorLine
      success := true
      tabStops := result.tabStops
      parenTrails := result.parenTrails
      error := none }
  else
    { text :=
        if result.isPartialResult then String.intercalate lineEnding result.lines
        else result.origText
      cursorX :=
        if result.isPartialResult then columnToOption result.cursorX
        else columnToOption result.origCursorX
      cursorLine :=
        if result.isPartialResult then lineNumberToOption result.cursorLine
        else lineNumberToOption result.origCursorLine
      parenTrails := result.parenTrails
      success := false
      tabStops := result.tabStops
      error := result.error }

/-- `process_text`.  The source recurses (once) on the `Restart` error kind,
switching to Paren mode; a Paren-mode pass never raises `Restart` (theorem
`parenPassNeverRestarts` below), so the recursion is modelled by a single
inlined fallback whose own (unreachable) `Restart` case reports the error
like any other. -/
def processText (text : String) (inputLines : List String) (options : Options)
    (mode : Mode) (smart : Bool) : Answer :=
  match processTextOnce text inputLines options mode smart with
  | Except.ok result => publicResult result
  | Except.error (e, result) =>
    if e.name = ErrorName.restart then
      match processTextOnce text inputLines options Mode.paren smart with
      | Except.ok result2 => publicResult result2
      | Except.error (e2, result2) => publicResult (processError result2 e2)
    else publicResult (processError result e)

def indentMode (text : String) (options : Options) : Answer :=
  processText text (splitLines text) options Mode.indent false

def parenMode (text : String) (options : Options) : Answer :=
  processText text (splitLines text) options Mode.paren false

def smartMode (text : String) (options : Options) : Answer :=
  let smart := options.selectionStartLine = none
  processText text (splitLines text) options Mode.indent smart

/-- A caller request. -/
structure Request where
  mode : String
  text : String
  options : Options
deriving DecidableEq, Repr

/-- Modelled from the spec: the *diff* utility that converts `prev_text`
into a list of structural edits is an external collaborator, out of scope;
only the shape of its records is specified.  No claim in this file depends
on its output. -/
def computeTextChanges (_prevText _text : String) : List Change := []

/-- Modelled from the spec: `Answer::from(Error)` (in `types.rs`, not under
`src/`) — a failed answer carrying the error and no processed text. -/
def answerFromError (e : Error) : Answer :=
  { text := "", cursorX := none, cursorLine := none, success := false,
    error := some e, tabStops := [], parenTrails := [] }

/-- Modelled from the spec: `Error::default()` (in `types.rs`, not under
`src/`): zero positions and an empty message.  The spec does not pin the
default error *kind*; no claim below depends on it. -/
def defaultError : Error :=
  { name := ErrorName.panicName, message := "", lineNo := 0, x := 0,
    inputLineNo := 0, inputX := 0 }

def MODE_INDENT : String := "indent"
def MODE_PAREN : String := "paren"
def MODE_SMART : String := "smart"
def BAD_MODE_MESSAGE : String := "Bad value specified for `mode`"

def process (request : Request) : Answer :=
  let options :=
    match request.options.prevText with
    | some prevText =>
      { request.options with
        changes := computeTextChanges prevText request.text }
    | none => request.options
  if request.mode = MODE_PAREN then parenMode request.text options
  else if request.mode = MODE_INDENT then indentMode request.text options
  else if request.mode = MODE_SMART then smartMode request.text options
  else answerFromError { defaultError with message := BAD_MODE_MESSAGE }

/-! ## Observables used by the theorems -/

/-- The state fields that are set by `get_initial_result` and never written
afterwards: mode, smart flag, original text, original cursor, and the
partial-result flag. -/
def stableFields (s : State) : Mode × Bool × String × Nat × Nat × Bool :=
  (s.mode, s.smart, s.origText, s.origCursorX, s.origCursorLine,
    s.isPartialResult)

/-- The error kind of a pass outcome, `none` for success. -/
def exErrName : Except (Error × State) State → Option ErrorName
  | Except.error (e, _) => some e.name
  | Except.ok _ => none

/-- Invariant of every processing step: the stable fields are preserved (in
the error case, by the state carried alongside the error), and — when the
mode is Paren or smart is off — the error is never the `Restart` kind. -/
def Invar (s : State) (r : Except (Error × State) State) : Prop :=
  match r with
  | Except.ok t => stableFields t = stableFields s
  | Except.error (e, t) =>
    stableFields t = stableFields s ∧
      ((s.mode = Mode.paren ∨ s.smart = false) → e.name ≠ ErrorName.restart)

/-! ## Concrete inputs and states used by the theorems -/

/-- The error kind carried by a public answer, `none` for success. -/
def answerErrName (a : Answer) : Option ErrorName :=
  a.error.map Error.name

def T2 : String := "(\na\n a"

/-- The text `indent_mode` produces from `T2`. -/
def T2I : String := "()\na\n a"

/-- An input whose indent-mode output survives paren mode verbatim. -/
def T2G : String := "(a\nb"

def T4 : String := "(foo))"

/-- An input whose second line leads with a close paren: in smart mode
(Indent + smart) its processing raises the internal `Restart` signal. -/
def T5 : String := "(a\n)"

def T6 : String := "(\n;\""

def T7 : String := " (a\n  b)"

/-- Options carrying a cursor column equal to the `usize::MAX` sentinel the
engine uses internally for "no cursor". -/
def c3opts : Options := { cursorX := some NO_COLUMN }

/-- The empty stack with a `)` in Paren mode. -/
def c4state : State :=
  { getInitialResult "" [] defaultOptions Mode.paren false with
    ch := CLOSE_PAREN }

def c6initState : State :=
  getInitialResult T6 (splitLines T6) defaultOptions Mode.indent false

def c6lineRun : Except (Error × State) State :=
  processTextLines c6initState (List.range (splitLines T6).length)

/-- A Paren-mode state with an unclosed opener, as produced by running the
single line `"("`. -/
def c6parenState : State :=
  { getInitialResult "(" [] defaultOptions Mode.paren false with
    parenStack := [{ inputLineNo := 0, inputX := 0, lineNo := 0, x := 0,
                     ch := OPEN_PAREN, indentDelta := 0, maxChildIndent := none,
                     argX := none }] }

def c7options : Options :=
  { defaultOptions with
    changes := [{ x := 0, lineNo := 0, oldText := "", newText := " " }] }

/-- The column the amended C7 claim assigns: the current column, shifted by
the parent's `indent_delta` when that differs from the line's accumulated
`indent_delta`, clamped into `[parent.x + 1, parent.max_child_indent]`. -/
def claimedIndent (s : State) (parent : Paren) : Int :=
  clamp
    ((s.x : Int) +
      (if parent.indentDelta ≠ s.indentDelta then parent.indentDelta else 0))
    (some ((parent.x : Int) + 1))
    (parent.maxChildIndent.map (fun m => (m : Int)))

/-- One opener at column 0, current column 4, `max_child_indent` 2. -/
def c7state : State :=
  { getInitialResult "" [] defaultOptions Mode.paren false with
    x := 4, lineNo := 0, lines := ["    b"],
    parenStack := [{ inputLineNo := 0, inputX := 0, lineNo := 0, x := 0,
                     ch := OPEN_PAREN, indentDelta := 0, maxChildIndent := some 2,
                     argX := none }] }

/-- A state exactly as `on_char` produces it for the `)` of `"(a \\)"`:
code context, current grapheme `)`, escape flag `Escaped`. -/
def c8state : State :=
  { getInitialResult "" [] defaultOptions Mode.indent false with
    ch := CLOSE_PAREN, escape := Now.escaped }

/-- Concrete state inside a Janet long string opened by three backticks,
one close backtick seen, current grapheme a backtick. -/
def c9state : State :=
  { getInitialResult "" [] { defaultOptions with janetLongStrings := true }
      Mode.indent false with
    ch := GRAVE, context := In.janetLongString 3 1 }

def c10request : Request :=
  { mode := "bogus", text := "(foo", options := defaultOptions }

/-! # Theorems -/

/-! ## Monad-reduction helpers -/

@[simp]
theorem exBindOk {ε α β : Type} (x : α) (f : α → Except ε β) :
    (Except.ok x >>= f) = f x := rfl

@[simp]
theorem exBindErr {ε α β : Type} (e : ε) (f : α → Except ε β) :
    ((Except.error e : Except ε α) >>= f) = Except.error e := rfl

@[simp]
theorem exPure {ε α : Type} (x : α) :
    (pure x : Except ε α) = Except.ok x := rfl

/-! ## Claim C8: the closable-character test

The claim says a grapheme is closable exactly when it is non-empty, in code
context, not whitespace, **not escaped**, and not a close-bracket.  In the
code the escape flag only gates the whitespace and close-bracket tests: an
*escaped* close-bracket (or escaped space) in code context *is* closable.
-/

/-- C8, counterexample: an escaped close-bracket in code context is judged
closable, although the claim's predicate ("not escaped, and not a
close-bracket") rejects it. -/
theorem claim8_counterexample :
    isClosable c8state = true ∧ c8state.isEscaped = true ∧
      rustIsCloseParen c8state.ch = true ∧ c8state.isInCode = true ∧
      c8state.ch ≠ "" := by
  decide

/-- C8 (amended): a grapheme is judged closable exactly when it is
non-empty, the context is code, it is not *unescaped* whitespace, and it is
not an *unescaped* close-bracket — the escape flag inhibits the whitespace
and close-bracket tests rather than closability itself. -/
theorem claim8_amended_closable_test (s : State) :
    isClosable s = true ↔
      s.ch ≠ "" ∧ s.isInCode = true ∧
        ¬(s.isEscaped = false ∧ (s.ch = BLANK_SPACE ∨ s.ch = DOUBLE_SPACE)) ∧
        ¬(s.isEscaped = false ∧ rustIsCloseParen s.ch = true) := by
  unfold isClosable isWhitespace
  cases h : s.isEscaped <;> cases h2 : rustIsCloseParen s.ch <;>
    simp [h, h2] <;> tauto

/-- Witness for the amended C8 at a concrete state. -/
theorem claim8_amended_witness :
    isClosable c8state = true ∧ c8state.ch ≠ "" := by
  refine ⟨(claim8_amended_closable_test c8state).mpr ?_, by decide⟩
  refine ⟨by decide, by decide, by decide, by decide⟩

/-! ## Claim C9: Janet long-string transitions -/

/-- C9: with `janet_long_strings` enabled, in context `LongString(n, c)` a
backtick advances the close-delimiter count (exiting to `Code` exactly when
it reaches `n`), and any other grapheme resets the count to `0`; the
transition is the value of the function `on_context`, hence deterministic
in (context, grapheme). -/
theorem stateEtaContext (s : State) (v : In) (h : s.context = v) :
    { s with context := v } = s := by
  cases s; cases h; rfl

theorem claim9_janet_long_string (s : State) (n c : Nat)
    (_henabled : s.janetLongStringsEnabled = true)
    (hctx : s.context = In.janetLongString n c) :
    (s.ch = GRAVE →
      onContext s = Except.ok
        { s with context :=
            if n = c + 1 then In.code else In.janetLongString n (c + 1) }) ∧
    (s.ch ≠ GRAVE →
      onContext s = Except.ok { s with context := In.janetLongString n 0 }) := by
  constructor
  · intro hg
    unfold onContext
    rw [hctx]
    by_cases h : n = c + 1 <;>
      simp [hg, inJanetLongStringOnGrave, h]
  · intro hg
    unfold onContext
    rw [hctx]
    simp only [if_neg hg, inJanetLongStringOnElse]
    rcases c with _ | c
    · simp [stateEtaContext s _ hctx]
    · simp

/-- Witness for C9 at a concrete state: `LongString(3, 1)` plus a backtick
moves to `LongString(3, 2)`. -/
theorem claim9_witness :
    onContext c9state = Except.ok
      { c9state with context :=
          if 3 = 1 + 1 then In.code else In.janetLongString 3 (1 + 1) } :=
  (claim9_janet_long_string c9state 3 1 rfl rfl).1 rfl

/-! ## Claim C10: unknown mode strings are rejected without processing -/

/-- C10: a request whose mode is none of "indent" / "paren" / "smart"
produces the bad-mode error answer — an expression independent of the
request's text, so the text is not processed at all. -/
theorem claim10_bad_mode (req : Request)
    (h1 : req.mode ≠ MODE_INDENT) (h2 : req.mode ≠ MODE_PAREN)
    (h3 : req.mode ≠ MODE_SMART) :
    process req = answerFromError { defaultError with message := BAD_MODE_MESSAGE } ∧
    (process req).success = false ∧
    (process req).error.map Error.message = some BAD_MODE_MESSAGE := by
  have hp : process req =
      answerFromError { defaultError with message := BAD_MODE_MESSAGE } := by
    unfold process
    rcases req.options.prevText with _ | p <;>
      simp [h1, h2, h3]
  exact ⟨hp, by rw [hp]; rfl, by rw [hp]; rfl⟩

/-- Witness for C10 at a concrete request with mode "bogus". -/
theorem claim10_witness :
    process c10request =
      answerFromError { defaultError with message := BAD_MODE_MESSAGE } :=
  (claim10_bad_mode c10request (by decide) (by decide) (by decide)).1

/-! ## Claim C4: unmatched close-paren in Paren mode -/

/-- C4: in Paren mode with `smart = false`, a close-bracket reaching the
code-context close-paren handler while it does not match the stack top (or
the stack is empty) makes the handler fail with `UnmatchedCloseParen`; and
concretely `paren_mode("(foo))")` fails with `UnmatchedCloseParen` at
line 0, x 5. -/
theorem claim4_unmatched_close_paren :
    (∀ s : State, s.mode = Mode.paren → s.smart = false →
      isValidCloseParen s.parenStack s.ch = false →
      inCodeOnCloseParen s =
        Except.error (mkError s ErrorName.unmatchedCloseParen, s) ∧
      (mkError s ErrorName.unmatchedCloseParen).name =
        ErrorName.unmatchedCloseParen) ∧
    (parenMode T4 defaultOptions).success = false ∧
    (parenMode T4 defaultOptions).error.map (fun e => (e.name, e.lineNo, e.x)) =
      some (ErrorName.unmatchedCloseParen, 0, 5) := by
  refine ⟨?_, by decide, by decide⟩
  intro s hmode hsmart hvalid
  constructor
  · unfold inCodeOnCloseParen inCodeOnUnmatchedCloseParen
    rw [hvalid]
    simp only [hmode, hsmart]
    simp [errorF]
  · unfold mkError
    simp

/-- Witness for the universally quantified half of C4. -/
theorem claim4_witness :
    inCodeOnCloseParen c4state =
      Except.error (mkError c4state ErrorName.unmatchedCloseParen, c4state) :=
  (claim4_unmatched_close_paren.1 c4state rfl rfl (by decide)).1

/-! ## Claim C6: end-of-input checks in `finalize_result`

The claim omits the quote-danger check, which `finalize_result` runs
*before* the stringish / unclosed-paren checks: an input whose lines all
process cleanly but leave `quote_danger` set (an odd number of quotes in a
comment) fails with `QuoteDanger` even in Indent mode with a non-empty
stack, where the claim says the call does not fail. -/

/-- C6, counterexample: on `"(\n;\""` in Indent mode every line processes
without error, the final context is not stringish, the stack is non-empty —
the claim says such a call does not fail — yet `finalize_result` fails with
`QuoteDanger`. -/
theorem claim6_counterexample :
    (c6lineRun.toOption.map (fun s =>
      (s.isInStringish, decide (s.mode = Mode.indent), s.parenStack.isEmpty,
        s.quoteDanger))) = some (false, true, false, true) ∧
    (match c6lineRun with
     | Except.ok s =>
       match finalizeResult s with
       | Except.error (e, _) => some e.name
       | Except.ok _ => none
     | Except.error _ => none) = some ErrorName.quoteDanger ∧
    (indentMode T6 defaultOptions).success = false ∧
    (indentMode T6 defaultOptions).error.map Error.name =
      some ErrorName.quoteDanger := by
  decide

/-- `on_indent` can only fail through the quote-danger check. -/
theorem onIndentOkOfNoQuoteDanger (s : State) (hqd : s.quoteDanger = false) :
    onIndent s =
      Except.ok (onIndentBody { s with indentX := s.x, trackingIndent := false }) := by
  unfold onIndent
  simp [hqd]

/-- C6 (amended): when the lines processed without an earlier error *and
the quote-danger flag is clear* (otherwise `QuoteDanger` is raised first),
`finalize_result` fails with `UnclosedQuote` if the context is stringish,
fails with `UnclosedParen` if the mode is Paren and the stack is non-empty,
and in Indent mode does not fail but runs one final `on_indent` at column 0
(after `init_line`) and marks success. -/
theorem claim6_amended_finalize (s : State) (hqd : s.quoteDanger = false) :
    (s.isInStringish = true →
      finalizeResult s = Except.error (mkError s ErrorName.unclosedQuote, s) ∧
      (mkError s ErrorName.unclosedQuote).name = ErrorName.unclosedQuote) ∧
    (s.isInStringish = false → s.mode = Mode.paren → s.parenStack ≠ [] →
      finalizeResult s = Except.error (mkError s ErrorName.unclosedParen, s) ∧
      (mkError s ErrorName.unclosedParen).name = ErrorName.unclosedParen) ∧
    (s.isInStringish = false → s.mode = Mode.indent →
      finalizeResult s =
        Except.map (fun t => { t with success := true }) (onIndent (initLine s)) ∧
      (∃ t, onIndent (initLine s) = Except.ok t) ∧
      (initLine s).x = 0) := by
  refine ⟨?_, ?_, ?_⟩
  · intro hstr
    refine ⟨?_, by simp [mkError]⟩
    unfold finalizeResult
    simp [hqd, hstr, errorF]
  · intro hstr hmode hstack
    refine ⟨?_, by unfold mkError; rcases peek s.parenStack 0 <;> simp⟩
    unfold finalizeResult
    have hlen : s.parenStack.length ≠ 0 := by
      simpa [List.length_eq_zero] using hstack
    simp [hqd, hstr, hmode, hlen, hstack, errorF]
  · intro hstr hmode
    have hqd2 : (initLine s).quoteDanger = false := by
      simp [initLine, hqd]
    refine ⟨?_, ⟨_, onIndentOkOfNoQuoteDanger _ hqd2⟩, by simp [initLine]⟩
    unfold finalizeResult
    simp [hqd, hstr, hmode, onIndentOkOfNoQuoteDanger _ hqd2, Except.map]

/-- Witness for the amended C6: a Paren-mode state with an unclosed opener
fails with `UnclosedParen`. -/
theorem claim6_amended_witness :
    finalizeResult c6parenState =
      Except.error (mkError c6parenState ErrorName.unclosedParen, c6parenState) :=
  ((claim6_amended_finalize c6parenState rfl).2.1 rfl rfl (by decide)).1

/-! ## Claim C7: Paren-mode indentation correction

The claim says `correct_indent` clamps the current column into
`[parent.x + 1, parent.max_child_indent]`.  The code first *adds the parent
opener's `indent_delta`* (when it differs from the line's accumulated
`indent_delta`) and clamps the shifted column, so with a `changes` option
the resulting indentation is not the clamp of the current column. -/

set_option maxHeartbeats 1000000 in
/-- C7, counterexample: with a change recording one space inserted before
`(a`, the second line of `" (a\n  b)"` starts at column 2 with the parent
opener at x = 1 and no `max_child_indent`; the claim predicts
`clamp 2 [2, ∞) = 2`, i.e. the line unchanged, but paren mode moves it to
column 3 (it adds the parent's inherited `indent_delta` of +1 before
clamping). -/
theorem claim7_counterexample :
    (parenMode T7 c7options).success = true ∧
    (parenMode T7 c7options).text = " (a\n   b)" ∧
    clamp (2 : Int) (some 2) none = 2 ∧
    (" (a\n   b)" : String) ≠ T7 := by
  refine ⟨rfl, rfl, by decide, by decide⟩

theorem intToUsizeOfLt (n : Nat) (h : n < USIZE_MOD) :
    intToUsize (n : Int) = n := by
  unfold intToUsize USIZE_MOD at *
  omega

theorem replaceWithinLineX (r : State) (l a b : Nat) (rep : String) :
    (replaceWithinLine r l a b rep).x = r.x := by
  unfold replaceWithinLine shiftCursorOnEdit
  dsimp only
  split <;> rfl

theorem replaceWithinLineLines (r : State) (l a b : Nat) (rep : String) :
    (replaceWithinLine r l a b rep).lines =
      r.lines.set l (replaceWithinString ((r.lines.get? l).getD "") a b rep) := by
  unfold replaceWithinLine shiftCursorOnEdit
  dsimp only
  split <;> rfl

theorem addIndentX (s : State) (d : Int) :
    (addIndent s d).x = intToUsize ((s.x : Int) + d) := by
  unfold addIndent
  rfl

theorem addIndentLines (s : State) (d : Int) :
    (addIndent s d).lines =
      s.lines.set s.lineNo
        (replaceWithinString ((s.lines.get? s.lineNo).getD "") 0 s.x
          (repeatString BLANK_SPACE (intToUsize ((s.x : Int) + d)))) := by
  unfold addIndent
  rw [replaceWithinLineLines]

/-- `correct_indent` with a non-empty stack is exactly: re-indent to the
claimed (delta-shifted, clamped) column when it differs from the current
one. -/
theorem correctIndentEq (s : State) (parent : Paren)
    (hp : peek s.parenStack 0 = some parent) :
    correctIndent s =
      (if claimedIndent s parent = (s.x : Int) then s
       else addIndent s (claimedIndent s parent - (s.x : Int))) := by
  unfold correctIndent claimedIndent shouldAddOpenerIndent
  rw [hp]
  simp only [ne_eq, decide_not, Bool.if_true_left, decide_eq_true_eq]
  by_cases h :
      clamp
        ((s.x : Int) +
          (if ¬parent.indentDelta = s.indentDelta then parent.indentDelta else 0))
        (some ((parent.x : Int) + 1))
        (parent.maxChildIndent.map (fun m => (m : Int))) = (s.x : Int) <;>
    simp [h]

theorem clampIntoInterval (val low : Int) (mx : Option Int)
    (h : ∀ m, mx = some m → low ≤ m) :
    low ≤ clamp val (some low) mx ∧
      ∀ m, mx = some m → clamp val (some low) mx ≤ m := by
  rcases mx with _ | m
  · refine ⟨?_, by intro m hm; cases hm⟩
    unfold clamp
    dsimp only
    split <;> omega
  · have hlm := h m rfl
    unfold clamp
    dsimp only
    refine ⟨?_, ?_⟩
    · split
      · omega
      · split <;> omega
    · intro m2 hm2
      injection hm2 with hmeq
      subst hmeq
      split
      · omega
      · split <;> omega

/-- C7 (amended): at an indent point in Paren mode with a non-empty stack,
`correct_indent` sets the line's indentation to the clamp of the current
column *shifted by the parent's `indent_delta`* (when that differs from the
line's accumulated delta) into `[parent.x + 1, parent.max_child_indent]`,
and rewrites the leading whitespace to the resulting column; the resulting
column lies in the claimed interval whenever the interval is non-empty. -/
theorem claim7_amended_correct_indent (s : State) (parent : Paren)
    (hp : peek s.parenStack 0 = some parent) (hxm : s.x < USIZE_MOD) :
    (correctIndent s).x = intToUsize (claimedIndent s parent) ∧
    ((∀ m, parent.maxChildIndent = some m → parent.x + 1 ≤ m) →
      (parent.x : Int) + 1 ≤ claimedIndent s parent ∧
        ∀ m, parent.maxChildIndent = some m → claimedIndent s parent ≤ (m : Int)) ∧
    (correctIndent s).lines =
      (if claimedIndent s parent = (s.x : Int) then s.lines
       else s.lines.set s.lineNo
         (replaceWithinString ((s.lines.get? s.lineNo).getD "") 0 s.x
           (repeatString BLANK_SPACE (intToUsize (claimedIndent s parent))))) := by
  have harith : ((s.x : Int) + (claimedIndent s parent - (s.x : Int))) =
      claimedIndent s parent := by ring
  refine ⟨?_, ?_, ?_⟩
  · rw [correctIndentEq s parent hp]
    by_cases hni : claimedIndent s parent = (s.x : Int)
    · rw [if_pos hni, hni, intToUsizeOfLt s.x hxm]
    · rw [if_neg hni, addIndentX, harith]
  · intro hmono
    have hcl := clampIntoInterval
      ((s.x : Int) +
        (if parent.indentDelta ≠ s.indentDelta then parent.indentDelta else 0))
      ((parent.x : Int) + 1)
      (parent.maxChildIndent.map (fun m => (m : Int)))
      (by
        intro mi hmi
        rcases hmc : parent.maxChildIndent with _ | m0
        · rw [hmc] at hmi; cases hmi
        · rw [hmc] at hmi
          injection hmi with hmi2
          have hmi3 : (m0 : Int) = mi := hmi2
          have := hmono m0 hmc
          omega)
    refine ⟨hcl.1, ?_⟩
    intro m hm
    exact hcl.2 (m : Int) (by rw [hm]; rfl)
  · rw [correctIndentEq s parent hp]
    by_cases hni : claimedIndent s parent = (s.x : Int)
    · rw [if_pos hni, if_pos hni]
    · rw [if_neg hni, if_neg hni, addIndentLines, harith]

/-- Witness for the amended C7 at a concrete state: the line is re-indented
to the clamp result 2. -/
theorem claim7_amended_witness :
    (correctIndent c7state).x =
      intToUsize (claimedIndent c7state
        { inputLineNo := 0, inputX := 0, lineNo := 0, x := 0,
          ch := OPEN_PAREN, indentDelta := 0, maxChildIndent := some 2,
          argX := none }) :=
  (claim7_amended_correct_indent c7state _ (by decide) (by decide)).1

/-! ## Preservation of the stable fields (`stableFields`)

`mode`, `smart`, `orig_text`, `orig_cursor_x`, `orig_cursor_line` and
`partial_result` are written only by `get_initial_result`; every processing
step preserves them.  One lemma per function, bottom-up. -/

theorem sfCacheErrorPos (s : State) (n : ErrorName) :
    stableFields (cacheErrorPos s n) = stableFields s := rfl

theorem sfResetParenTrail (s : State) (l x : Nat) :
    stableFields (resetParenTrail s l x) = stableFields s := rfl

theorem sfReplaceWithinLine (s : State) (l a b : Nat) (rep : String) :
    stableFields (replaceWithinLine s l a b rep) = stableFields s := by
  unfold replaceWithinLine shiftCursorOnEdit
  dsimp only
  split <;> rfl

theorem sfInsertWithinLine (s : State) (l i : Nat) (ins : String) :
    stableFields (insertWithinLine s l i ins) = stableFields s :=
  sfReplaceWithinLine s l i i ins

theorem sfInitLine (s : State) : stableFields (initLine s) = stableFields s := rfl

theorem sfCommitChar (s : State) (c : String) :
    stableFields (commitChar s c) = stableFields s := by
  unfold commitChar replaceWithinLine shiftCursorOnEdit
  dsimp only
  repeat' split
  all_goals rfl

theorem sfTrackArgTabStop (s : State) (t : TrackingArgTabStop) :
    stableFields (trackArgTabStop s t) = stableFields s := by
  unfold trackArgTabStop
  repeat' split
  all_goals rfl

theorem sfHandleChangeDelta (s : State) :
    stableFields (handleChangeDelta s) = stableFields s := by
  unfold handleChangeDelta
  repeat' split
  all_goals rfl

theorem sfInCodeOnOpenParen (s : State) :
    stableFields (inCodeOnOpenParen s) = stableFields s := rfl

theorem sfInCodeOnTab (s : State) :
    stableFields (inCodeOnTab s) = stableFields s := rfl

theorem sfInCodeOnCommentChar (s : State) :
    stableFields (inCodeOnCommentChar s) = stableFields s := rfl

theorem sfOnNewline (s : State) :
    stableFields (onNewline s) = stableFields s := by
  unfold onNewline
  dsimp only
  split <;> rfl

theorem sfInCodeOnQuote (s : State) :
    stableFields (inCodeOnQuote s) = stableFields s := rfl

theorem sfInCommentOnQuote (s : State) :
    stableFields (inCommentOnQuote s) = stableFields s := by
  unfold inCommentOnQuote cacheErrorPos
  dsimp only
  split <;> rfl

theorem sfInStringOnQuote (s : State) (delim : String) :
    stableFields (inStringOnQuote s delim) = stableFields s := by
  unfold inStringOnQuote
  split <;> rfl

theorem sfInCodeOnNsign (s : State) :
    stableFields (inCodeOnNsign s) = stableFields s := rfl

theorem sfInLispReaderSyntaxOnVline (s : State) :
    stableFields (inLispReaderSyntaxOnVline s) = stableFields s := rfl

theorem sfInLispReaderSyntaxOnBang (s : State) :
    stableFields (inLispReaderSyntaxOnBang s) = stableFields s := rfl

theorem sfInLispReaderSyntaxOnSemicolon (s : State) :
    stableFields (inLispReaderSyntaxOnSemicolon s) = stableFields s := rfl

theorem sfInLispBlockCommentPreOnVline (s : State) (d : Nat) :
    stableFields (inLispBlockCommentPreOnVline s d) = stableFields s := rfl

theorem sfInLispBlockCommentPreOnElse (s : State) (d : Nat) :
    stableFields (inLispBlockCommentPreOnElse s d) = stableFields s := rfl

theorem sfInLispBlockCommentOnNsign (s : State) (d : Nat) :
    stableFields (inLispBlockCommentOnNsign s d) = stableFields s := rfl

theorem sfInLispBlockCommentOnVline (s : State) (d : Nat) :
    stableFields (inLispBlockCommentOnVline s d) = stableFields s := rfl

theorem sfInLispBlockCommentPostOnNsign (s : State) (d : Nat) :
    stableFields (inLispBlockCommentPostOnNsign s d) = stableFields s := by
  unfold inLispBlockCommentPostOnNsign
  dsimp only
  split <;> rfl

theorem sfInLispBlockCommentPostOnElse (s : State) (d : Nat) :
    stableFields (inLispBlockCommentPostOnElse s d) = stableFields s := rfl

theorem sfInGuileBlockCommentOnBang (s : State) :
    stableFields (inGuileBlockCommentOnBang s) = stableFields s := rfl

theorem sfInGuileBlockCommentPostOnNsign (s : State) :
    stableFields (inGuileBlockCommentPostOnNsign s) = stableFields s := rfl

theorem sfInGuileBlockCommentPostOnElse (s : State) :
    stableFields (inGuileBlockCommentPostOnElse s) = stableFields s := rfl

theorem sfInCodeOnGrave (s : State) :
    stableFields (inCodeOnGrave s) = stableFields s := rfl

theorem sfInJanetLongStringPreOnGrave (s : State) (n : Nat) :
    stableFields (inJanetLongStringPreOnGrave s n) = stableFields s := rfl

theorem sfInJanetLongStringPreOnElse (s : State) (n : Nat) :
    stableFields (inJanetLongStringPreOnElse s n) = stableFields s := rfl

theorem sfInJanetLongStringOnGrave (s : State) (n c : Nat) :
    stableFields (inJanetLongStringOnGrave s n c) = stableFields s := by
  unfold inJanetLongStringOnGrave
  dsimp only
  split <;> rfl

theorem sfInJanetLongStringOnElse (s : State) (n c : Nat) :
    stableFields (inJanetLongStringOnElse s n c) = stableFields s := by
  unfold inJanetLongStringOnElse
  split <;> rfl

theorem sfOnBackslash (s : State) :
    stableFields (onBackslash s) = stableFields s := rfl

theorem sfClampParenTrailToCursor (s : State) :
    stableFields (clampParenTrailToCursor s) = stableFields s := by
  unfold clampParenTrailToCursor
  dsimp only
  split <;> rfl

theorem sfPopParenTrail (s : State) :
    stableFields (popParenTrail s) = stableFields s := by
  unfold popParenTrail
  split <;> rfl

theorem sfGetParentOpenerIndexGo (s : State) (ix : Nat) :
    ∀ (fuel i : Nat),
      stableFields (getParentOpenerIndexGo s ix i fuel).2 = stableFields s := by
  intro fuel
  induction fuel with
  | zero => intro i; rfl
  | succ n ih =>
    intro i
    unfold getParentOpenerIndexGo
    dsimp only
    repeat' split
    all_goals first | rfl | exact ih (i + 1)

theorem sfGetParentOpenerIndex (s : State) (ix : Nat) :
    stableFields (getParentOpenerIndex s ix).2 = stableFields s :=
  sfGetParentOpenerIndexGo s ix _ 0

theorem sfSetMaxIndent (s : State) (opener : Paren) :
    stableFields (setMaxIndent s opener) = stableFields s := by
  unfold setMaxIndent
  split <;> rfl

theorem sfRememberParenTrail (s : State) :
    stableFields (rememberParenTrail s) = stableFields s := by
  unfold rememberParenTrail
  split <;> rfl

theorem sfUpdateRememberedParenTrail (s : State) :
    stableFields (updateRememberedParenTrail s) = stableFields s := by
  unfold updateRememberedParenTrail
  repeat' split
  all_goals first | rfl | exact sfRememberParenTrail s

theorem sfCorrectParenTrailLoop :
    ∀ (n : Nat) (s : State) (parens : String),
      stableFields (correctParenTrailLoop s parens n).1 = stableFields s := by
  intro n
  induction n with
  | zero => intro s parens; rfl
  | succ k ih =>
    intro s parens
    unfold correctParenTrailLoop
    split
    · rfl
    · exact ih _ _

theorem sfCorrectParenTrail (s : State) (ix : Nat) :
    stableFields (correctParenTrail s ix) = stableFields s := by
  unfold correctParenTrail getParentOpenerIndex
  dsimp only
  have hg := sfGetParentOpenerIndexGo s ix s.parenStack.length 0
  revert hg
  generalize getParentOpenerIndexGo s ix 0 s.parenStack.length = ir
  intro hg
  have hl := sfCorrectParenTrailLoop ir.1 ir.2 ""
  revert hl
  generalize correctParenTrailLoop ir.2 "" ir.1 = sp
  intro hl
  split
  · rw [sfRememberParenTrail]
    exact (sfReplaceWithinLine _ _ _ _ _).trans (hl.trans hg)
  · exact hl.trans hg

theorem sfCleanParenTrail (s : State) :
    stableFields (cleanParenTrail s) = stableFields s := by
  unfold cleanParenTrail
  dsimp only
  repeat' split
  all_goals first | rfl | exact sfReplaceWithinLine _ _ _ _ _

theorem sfAppendParenTrail (s : State) :
    stableFields (appendParenTrail s) = stableFields s := by
  unfold appendParenTrail
  dsimp only
  split
  · rfl
  · rw [sfUpdateRememberedParenTrail]
    exact (sfInsertWithinLine _ _ _ _).trans (sfSetMaxIndent _ _)

theorem sfInvalidateParenTrail (s : State) :
    stableFields (invalidateParenTrail s) = stableFields s := rfl

theorem sfFinishNewParenTrail (s : State) :
    stableFields (finishNewParenTrail s) = stableFields s := by
  unfold finishNewParenTrail
  dsimp only
  repeat' split
  all_goals
    first
    | rfl
    | exact (sfPopParenTrail _).trans (sfClampParenTrailToCursor _)
    | (rw [sfRememberParenTrail]
       try
         first
         | rfl
         | exact sfCleanParenTrail _
         | exact sfSetMaxIndent _ _
         | exact (sfCleanParenTrail _).trans (sfSetMaxIndent _ _))

theorem sfAddIndent (s : State) (d : Int) :
    stableFields (addIndent s d) = stableFields s := by
  unfold addIndent
  exact sfReplaceWithinLine _ _ _ _ _

theorem sfCorrectIndent (s : State) :
    stableFields (correctIndent s) = stableFields s := by
  unfold correctIndent
  dsimp only
  repeat' split
  all_goals first | rfl | exact sfAddIndent _ _

theorem sfOnIndentBody (s : State) :
    stableFields (onIndentBody s) = stableFields s := by
  unfold onIndentBody
  dsimp only
  repeat' split
  all_goals
    first
    | exact sfCorrectIndent _
    | exact sfCorrectParenTrail _ _
    | exact (sfAddIndent _ _).trans (sfCorrectParenTrail _ _)

theorem sfOnCommentLine (s : State) :
    stableFields (onCommentLine s) = stableFields s := by
  unfold onCommentLine getParentOpenerIndex
  dsimp only
  repeat' split
  all_goals
    first
    | rfl
    | exact sfGetParentOpenerIndexGo _ _ _ _
    | exact (sfAddIndent _ _).trans (sfGetParentOpenerIndexGo _ _ _ _)

theorem sfSetTabStops (s : State) :
    stableFields (setTabStops s) = stableFields s := by
  unfold setTabStops
  dsimp only
  repeat' split
  all_goals rfl

theorem sfProcessError (s : State) (e : Error) :
    stableFields (processError s e) = stableFields s := rfl

theorem sfOnCharTail (s : State) :
    stableFields (onCharTail s) = stableFields s := by
  unfold onCharTail
  dsimp only
  repeat' split
  all_goals
    first
    | rfl
    | exact sfResetParenTrail _ _ _
    | exact sfTrackArgTabStop _ _

/-! ## The step invariant (`Invar`): stable fields preserved, no `Restart`
outside Indent-smart -/

theorem mkErrorName (s : State) (n : ErrorName) : (mkError s n).name = n := by
  unfold mkError
  dsimp only
  repeat' split
  all_goals rfl

theorem invarOk {s t : State} (h : stableFields t = stableFields s) :
    Invar s (Except.ok t) := h

theorem invarErrorF {s t : State} (n : ErrorName)
    (hsf : stableFields t = stableFields s) (hn : n ≠ ErrorName.restart) :
    Invar s (errorF t n) := by
  refine ⟨hsf, fun _ => ?_⟩
  rw [mkErrorName]
  exact hn

theorem invarTrans {s r : State} (hsr : stableFields r = stableFields s)
    {X : Except (Error × State) State} (h : Invar r X) : Invar s X := by
  rcases X with ⟨e, t⟩ | t
  · obtain ⟨h1, h2⟩ := h
    refine ⟨h1.trans hsr, ?_⟩
    intro hc
    apply h2
    rcases hc with hc | hc
    · exact Or.inl ((congrArg (fun p => p.1) hsr).trans hc)
    · exact Or.inr ((congrArg (fun p => p.2.1) hsr).trans hc)
  · exact Eq.trans (h : stableFields t = stableFields r) hsr

/-- `invarTrans` with the arguments flipped, so the state `r` is fixed by
the invariant before the stable-fields proof is elaborated. -/
theorem invarTrans2 {s r : State} {X : Except (Error × State) State}
    (h : Invar r X) (hsr : stableFields r = stableFields s) : Invar s X :=
  invarTrans hsr h

theorem invarBind {s : State} {r : Except (Error × State) State}
    {g : State → Except (Error × State) State}
    (hr : Invar s r) (hg : ∀ t, Invar t (g t)) : Invar s (r >>= g) := by
  rcases r with ⟨e, t⟩ | t
  · exact hr
  · have h1 : stableFields t = stableFields s := hr
    show Invar s (g t)
    exact invarTrans h1 (hg t)

/-- `check_cursor_holding` either returns a bool or raises exactly the
`Restart` signal, leaving the state untouched. -/
theorem checkCursorHoldingCases (s : State) :
    (∃ b, checkCursorHolding s = Except.ok b) ∨
      checkCursorHolding s =
        Except.error
          ({ name := ErrorName.restart, x := 0, inputLineNo := 0, inputX := 0,
             lineNo := 0, message := "" }, s) := by
  unfold checkCursorHolding
  dsimp only
  repeat' split
  all_goals first | exact Or.inl ⟨_, rfl⟩ | exact Or.inr rfl

theorem invarAfterBackslash (s : State) : Invar s (afterBackslash s) := by
  unfold afterBackslash
  dsimp only
  repeat' split
  all_goals
    first
    | exact invarOk rfl
    | exact invarErrorF _ rfl (by decide)

theorem invarInCodeOnUnmatchedCloseParen (s : State) :
    Invar s (inCodeOnUnmatchedCloseParen s) := by
  unfold inCodeOnUnmatchedCloseParen
  dsimp only
  repeat' split
  all_goals
    first
    | exact invarOk rfl
    | exact invarErrorF _ rfl (by decide)

theorem invarInCodeOnMatchedCloseParen (s : State) :
    Invar s (inCodeOnMatchedCloseParen s) := by
  unfold inCodeOnMatchedCloseParen
  dsimp only
  split
  · exact invarOk rfl
  · split
    · next h =>
      rcases checkCursorHoldingCases _ with ⟨b, hb⟩ | hb <;> rw [hb]
      · simp only [exBindOk]
        split <;> exact invarOk rfl
      · simp only [exBindErr]
        refine ⟨rfl, ?_⟩
        rintro (hc | hc) _
        · exact Mode.noConfusion ((h.1 : s.mode = Mode.indent).symm.trans hc)
        · exact Bool.noConfusion ((h.2 : s.smart = true).symm.trans hc)
    · exact invarOk rfl

theorem invarInCodeOnCloseParen (s : State) :
    Invar s (inCodeOnCloseParen s) := by
  unfold inCodeOnCloseParen
  split
  · exact invarInCodeOnMatchedCloseParen s
  · exact invarInCodeOnUnmatchedCloseParen s

theorem invarOnContextCode (s : State) : Invar s (onContextCode s) := by
  unfold onContextCode
  dsimp only
  repeat' split
  all_goals
    first
    | exact invarOk rfl
    | exact invarInCodeOnCloseParen _

theorem invarOnContext (s : State) : Invar s (onContext s) := by
  unfold onContext
  dsimp only
  repeat' split
  all_goals
    first
    | exact invarOk rfl
    | exact invarOk (sfInCommentOnQuote _)
    | exact invarOk (sfInStringOnQuote _ _)
    | exact invarOk (sfInLispBlockCommentPostOnNsign _ _)
    | exact invarOk (sfInJanetLongStringOnGrave _ _ _)
    | exact invarOk (sfInJanetLongStringOnElse _ _ _)
    | exact invarOnContextCode _

theorem invarOnChar (s : State) : Invar s (onChar s) := by
  unfold onChar
  dsimp only
  repeat' split
  all_goals
    refine invarBind ?_ (fun t => invarOk (sfOnCharTail t))
  all_goals
    first
    | exact invarOk rfl
    | exact invarOk (sfOnNewline _)
    | exact invarAfterBackslash _
    | exact invarOnContext _

theorem invarOnIndent (s : State) : Invar s (onIndent s) := by
  unfold onIndent
  dsimp only
  split
  · exact invarBind (invarErrorF _ rfl (by decide))
      (fun t => invarOk (sfOnIndentBody t))
  · exact invarBind (invarOk rfl) (fun t => invarOk (sfOnIndentBody t))

set_option maxHeartbeats 1000000 in
theorem invarOnLeadingCloseParen (s : State) :
    Invar s (onLeadingCloseParen s) := by
  unfold onLeadingCloseParen
  dsimp only
  cases hm : s.mode
  · -- Indent
    dsimp only
    split
    · split
      · next hsm =>
        refine ⟨rfl, ?_⟩
        rintro (hc | hc) _
        · exact Mode.noConfusion (hm.symm.trans hc)
        · exact Bool.noConfusion ((hsm : s.smart = true).symm.trans hc)
      · split <;>
          first
          | exact invarOk rfl
          | exact invarOk (by unfold stableFields; rw [hm])
    · first
      | exact invarOk rfl
      | exact invarOk (by unfold stableFields; rw [hm])
  · -- Paren
    dsimp only
    repeat' split
    all_goals
      first
      | exact invarTrans (sfResetParenTrail _ _ _) (invarOnIndent _)
      | exact invarOk (sfAppendParenTrail _)
      | exact invarErrorF _ rfl (by decide)
      | exact invarOk rfl
      | exact invarOk (by unfold stableFields; rw [hm])

theorem invarCheckUnmatchedOutsideParenTrail (s : State) :
    Invar s (checkUnmatchedOutsideParenTrail s) := by
  unfold checkUnmatchedOutsideParenTrail
  dsimp only
  split
  · exact invarErrorF _ rfl (by decide)
  · exact invarOk rfl

theorem invarCheckLeadingCloseParen (s : State) :
    Invar s (checkLeadingCloseParen s) := by
  unfold checkLeadingCloseParen
  split
  · exact invarErrorF _ rfl (by decide)
  · exact invarOk rfl

set_option maxHeartbeats 1000000 in
theorem invarCheckIndent (s : State) : Invar s (checkIndent s) := by
  unfold checkIndent
  repeat' split
  all_goals
    first
    | exact invarOnLeadingCloseParen _
    | exact invarOk (sfOnCommentLine _)
    | exact invarOnIndent _
    | exact invarOk rfl

theorem invarProcessChar (s : State) (ch : String) :
    Invar s (processChar s ch) := by
  unfold processChar
  dsimp only
  generalize hLit : ({ s with ch := ch, skipChar := false } : State) = r0
  have h0 : stableFields r0 = stableFields s := by rw [← hLit]; rfl
  split
  · refine invarBind
      (invarTrans ((sfHandleChangeDelta r0).trans h0) (invarCheckIndent _))
      (fun t => ?_)
    split
    · exact invarOk (sfCommitChar _ _)
    · exact invarBind (invarOnChar t) (fun u => invarOk (sfCommitChar u _))
  · simp only [exPure, exBindOk]
    split
    · exact invarOk ((sfCommitChar _ _).trans ((sfHandleChangeDelta r0).trans h0))
    · exact invarBind
        (invarTrans ((sfHandleChangeDelta r0).trans h0) (invarOnChar _))
        (fun u => invarOk (sfCommitChar u _))

theorem invarProcessGraphemes :
    ∀ (l : List (Nat × String)) (s : State), Invar s (processGraphemes s l) := by
  intro l
  induction l with
  | nil => intro s; exact invarOk rfl
  | cons p rest ih =>
    intro s
    unfold processGraphemes
    exact invarBind (invarProcessChar _ _) (fun t => ih t)

theorem invarProcessLine (s : State) (lineNo : Nat) :
    Invar s (processLine s lineNo) := by
  unfold processLine
  dsimp only
  refine invarBind
    (invarTrans2 (invarProcessGraphemes _ _) (sfSetTabStops _)) (fun t => ?_)
  refine invarBind (invarProcessChar _ _) (fun u => ?_)
  split
  · refine invarBind (invarCheckUnmatchedOutsideParenTrail u) (fun v => ?_)
    refine invarBind (invarCheckLeadingCloseParen v) (fun w => ?_)
    simp only [exPure, exBindOk]
    split
    · exact invarOk (sfFinishNewParenTrail _)
    · exact invarOk rfl
  · simp only [exPure, exBindOk]
    split
    · exact invarOk (sfFinishNewParenTrail _)
    · exact invarOk rfl

theorem invarFinalizeResult (s : State) : Invar s (finalizeResult s) := by
  unfold finalizeResult
  dsimp only
  repeat' first | split | simp only [exPure, exBindOk]
  all_goals
    first
    | exact invarErrorF _ rfl (by decide)
    | exact invarBind (invarOnIndent _) (fun w => invarOk rfl)
    | exact invarOk rfl

theorem invarProcessTextLines :
    ∀ (l : List Nat) (s : State), Invar s (processTextLines s l) := by
  intro l
  induction l with
  | nil => intro s; exact invarOk rfl
  | cons i rest ih =>
    intro s
    unfold processTextLines
    exact invarBind (invarProcessLine _ _) (fun t => ih t)

theorem invarProcessTextOnce (text : String) (il : List String)
    (opts : Options) (mode : Mode) (smart : Bool) :
    Invar (getInitialResult text il opts mode smart)
      (processTextOnce text il opts mode smart) := by
  unfold processTextOnce
  exact invarBind (invarProcessTextLines _ _) (fun t => invarFinalizeResult t)

/-! ## Consequences of the invariant -/

/-- A pass running in Paren mode, or with smart off, never raises the
`Restart` signal. -/
theorem processTextOnceNoRestart (text : String) (il : List String)
    (opts : Options) (mode : Mode) (smart : Bool)
    (h : mode = Mode.paren ∨ smart = false) :
    exErrName (processTextOnce text il opts mode smart) ≠
      some ErrorName.restart := by
  have hI := invarProcessTextOnce text il opts mode smart
  rcases hr : processTextOnce text il opts mode smart with ⟨e, t⟩ | t
  · rw [hr] at hI
    obtain ⟨_, h2⟩ := hI
    have hname := h2 (by
      rcases h with h | h
      · exact Or.inl h
      · exact Or.inr h)
    simp only [exErrName, ne_eq, Option.some.injEq]
    exact hname
  · simp [exErrName]

theorem bindOkSuccess {r : Except (Error × State) State} {f : State → State}
    {t : State} (hf : ∀ u, (f u).success = true)
    (h : (r >>= fun u => Except.ok (f u)) = Except.ok t) : t.success = true := by
  rcases r with ⟨e, u⟩ | u
  · exact absurd h (by simp [exBindErr])
  · rw [exBindOk] at h
    injection h with h2
    rw [← h2]
    exact hf u

theorem bindOkElim {r : Except (Error × State) State}
    {g : State → Except (Error × State) State} {t : State}
    (h : (r >>= g) = Except.ok t) :
    ∃ u, r = Except.ok u ∧ g u = Except.ok t := by
  rcases r with ⟨e, u⟩ | u
  · exact absurd h (by simp [exBindErr])
  · exact ⟨u, rfl, h⟩

theorem finalizeOkSuccess (s t : State) (h : finalizeResult s = Except.ok t) :
    t.success = true := by
  unfold finalizeResult at h
  dsimp only at h
  repeat'
    first
    | (split at h)
    | (simp only [errorF, exPure, exBindOk, exBindErr] at h)
  all_goals
    first
    | (injection h with h2; subst h2; rfl)
    | exact bindOkSuccess (fun u => rfl) h
    | exact absurd h (by simp)

theorem processTextOnceOkSuccess (text : String) (il : List String)
    (opts : Options) (mode : Mode) (smart : Bool) (st : State)
    (h : processTextOnce text il opts mode smart = Except.ok st) :
    st.success = true := by
  unfold processTextOnce at h
  obtain ⟨u, _, h2⟩ := bindOkElim h
  exact finalizeOkSuccess u st h2

theorem publicResultSuccessError (s : State) (h : s.success = true) :
    (publicResult s).error = none := by
  unfold publicResult
  simp [h]

theorem publicResultFailureFields (s : State) (hs : s.success = false)
    (hp : s.isPartialResult = false) :
    (publicResult s).text = s.origText ∧
    (publicResult s).cursorX = columnToOption s.origCursorX ∧
    (publicResult s).cursorLine = lineNumberToOption s.origCursorLine ∧
    (publicResult s).error = s.error := by
  unfold publicResult
  simp [hs, hp]

theorem publicResultSuccessTrue (s : State) (h : s.success = true) :
    (publicResult s).success = true := by
  unfold publicResult
  simp [h]

theorem publicResultErrorOfFailure (s : State) (hs : s.success = false) :
    (publicResult s).error = s.error := by
  unfold publicResult
  simp [hs]

/-- The components of a stable-fields equality. -/
theorem stableFieldsParts {u g : State} (h : stableFields u = stableFields g) :
    u.mode = g.mode ∧ u.smart = g.smart ∧ u.origText = g.origText ∧
      u.origCursorX = g.origCursorX ∧ u.origCursorLine = g.origCursorLine ∧
      u.isPartialResult = g.isPartialResult := by
  unfold stableFields at h
  simp only [Prod.mk.injEq] at h
  exact ⟨h.1, h.2.1, h.2.2.1, h.2.2.2.1, h.2.2.2.2.1, h.2.2.2.2.2⟩

/-- No answer `process_text` returns carries the `Restart` error kind: a
successful pass yields no error at all, and a failing pass reports either a
non-`Restart` first error or the (never-`Restart`) error of the Paren-mode
re-run. -/
theorem processTextNoRestart (text : String) (il : List String)
    (opts : Options) (mode : Mode) (smart : Bool) :
    answerErrName (processText text il opts mode smart) ≠
      some ErrorName.restart := by
  unfold processText
  rcases h1 : processTextOnce text il opts mode smart with ⟨e, r⟩ | r
  · dsimp only
    by_cases he : e.name = ErrorName.restart
    · rw [if_pos he]
      rcases h2 : processTextOnce text il opts Mode.paren smart with ⟨e2, r2⟩ | r2
      · dsimp only
        have hn : e2.name ≠ ErrorName.restart := by
          have hpn := processTextOnceNoRestart text il opts Mode.paren smart
            (Or.inl rfl)
          rw [h2] at hpn
          simpa [exErrName] using hpn
        have hE : (publicResult (processError r2 e2)).error = some e2 :=
          (publicResultErrorOfFailure (processError r2 e2) rfl).trans rfl
        unfold answerErrName
        rw [hE]
        simpa using hn
      · have hs : r2.success = true :=
          processTextOnceOkSuccess text il opts Mode.paren smart r2 h2
        unfold answerErrName
        rw [publicResultSuccessError r2 hs]
        simp
    · rw [if_neg he]
      have hE : (publicResult (processError r e)).error = some e :=
        (publicResultErrorOfFailure (processError r e) rfl).trans rfl
      unfold answerErrName
      rw [hE]
      simpa using he
  · have hs : r.success = true :=
      processTextOnceOkSuccess text il opts mode smart r h1
    dsimp only
    unfold answerErrName
    rw [publicResultSuccessError r hs]
    simp

/-! ## Claim C5: the `Restart` signal is internal -/

set_option maxHeartbeats 1000000 in
/-- C5: no public answer of `indent_mode`, `paren_mode` or `smart_mode`
ever carries the `Restart` error kind; a Paren-mode pass never raises
`Restart`; a pass that does raise `Restart` was an Indent-mode pass with
`smart` on, and the driver's answer is then exactly the outcome of the
single Paren-mode re-run; and on the concrete smart-mode input `T5`
(a leading close paren) the first pass does raise `Restart`, after which
the re-run succeeds and the smart-mode answer's text and success flag
coincide with the Paren-mode ones. -/
theorem claim5_restart_is_internal (text : String) (il : List String)
    (opts : Options) (mode : Mode) (smart : Bool) :
    answerErrName (indentMode text opts) ≠ some ErrorName.restart ∧
    answerErrName (parenMode text opts) ≠ some ErrorName.restart ∧
    answerErrName (smartMode text opts) ≠ some ErrorName.restart ∧
    exErrName (processTextOnce text il opts Mode.paren smart) ≠
      some ErrorName.restart ∧
    (exErrName (processTextOnce text il opts mode smart) =
        some ErrorName.restart →
      mode = Mode.indent ∧ smart = true ∧
      processText text il opts mode smart =
        (match processTextOnce text il opts Mode.paren smart with
         | Except.ok r2 => publicResult r2
         | Except.error (e2, r2) => publicResult (processError r2 e2))) ∧
    exErrName
        (processTextOnce T5 (splitLines T5) defaultOptions Mode.indent true) =
      some ErrorName.restart ∧
    (smartMode T5 defaultOptions).text = "(a)\n" ∧
    (smartMode T5 defaultOptions).success = true ∧
    (parenMode T5 defaultOptions).text = "(a)\n" ∧
    (parenMode T5 defaultOptions).success = true := by
  refine ⟨processTextNoRestart text (splitLines text) opts Mode.indent false,
    processTextNoRestart text (splitLines text) opts Mode.paren false,
    processTextNoRestart text (splitLines text) opts Mode.indent
      (decide (opts.selectionStartLine = none)),
    processTextOnceNoRestart text il opts Mode.paren smart (Or.inl rfl),
    ?_, by decide, by decide, by decide, by decide, by decide⟩
  intro hre
  have hmode : mode = Mode.indent := by
    cases mode
    · rfl
    · exact absurd hre
        (processTextOnceNoRestart text il opts Mode.paren smart (Or.inl rfl))
  have hsmart : smart = true := by
    cases smart
    · exact absurd hre
        (processTextOnceNoRestart text il opts mode false (Or.inr rfl))
    · rfl
  refine ⟨hmode, hsmart, ?_⟩
  unfold processText
  rcases h1 : processTextOnce text il opts mode smart with ⟨e, r⟩ | r
  · rw [h1] at hre
    simp only [exErrName, Option.some.injEq] at hre
    dsimp only
    rw [if_pos hre] <;> rfl
  · rw [h1] at hre
    exact absurd hre (by simp [exErrName])

/-! ## Claim C3: what a failing call returns

The claim says a failing call's `cursor_x` equals "the cursor position
given in the options".  The engine stores the option's cursor through the
`usize::MAX` sentinel (`column_from_option`) and maps the sentinel back to
`None` on output (`column_to_option`), so a caller who passes
`cursor_x = Some(usize::MAX)` gets `None` back, not the cursor given. -/

/-- C3, counterexample: a failing `paren_mode` call whose options carry
`cursor_x = Some(usize::MAX)` answers `cursor_x = None`, not the cursor
position given in the options. -/
theorem claim3_counterexample :
    (parenMode T4 c3opts).success = false ∧
    c3opts.cursorX = some NO_COLUMN ∧
    (parenMode T4 c3opts).cursorX = none ∧
    some NO_COLUMN ≠ (none : Option Nat) := by
  refine ⟨by decide, rfl, by decide, by decide⟩

/-- C3 (amended): a failing `process_text` call (every public mode is an
instance; `partial_result` is `false` throughout this program, so the
partial branch is unreachable) answers the original input text, and
`column_to_option` / `line_number_to_option` of the stored original cursor:
the cursor given in the options, except that a cursor equal to the
`usize::MAX` sentinel comes back as `None`. -/
theorem claim3_amended_failure_fields (text : String) (il : List String)
    (opts : Options) (mode : Mode) (smart : Bool)
    (h : (processText text il opts mode smart).success = false) :
    (processText text il opts mode smart).text = text ∧
    (processText text il opts mode smart).cursorX =
      columnToOption (columnFromOption opts.cursorX) ∧
    (processText text il opts mode smart).cursorLine =
      lineNumberToOption (lineNumberFromOption opts.cursorLine) := by
  unfold processText at h ⊢
  rcases h1 : processTextOnce text il opts mode smart with ⟨e, r⟩ | r
  · rw [h1] at h
    dsimp only at h ⊢
    have hInv := invarProcessTextOnce text il opts mode smart
    rw [h1] at hInv
    by_cases he : e.name = ErrorName.restart
    · rw [if_pos he] at h ⊢
      rcases h2 : processTextOnce text il opts Mode.paren smart with ⟨e2, r2⟩ | r2
      · rw [h2] at h
        dsimp only at h ⊢
        have hInv2 := invarProcessTextOnce text il opts Mode.paren smart
        rw [h2] at hInv2
        have hparts := stableFieldsParts hInv2.1
        have hp : (processError r2 e2).isPartialResult = false :=
          hparts.2.2.2.2.2.trans rfl
        have hPF := publicResultFailureFields (processError r2 e2) rfl hp
        exact ⟨hPF.1.trans (hparts.2.2.1.trans rfl),
          hPF.2.1.trans (congrArg columnToOption (hparts.2.2.2.1.trans rfl)),
          hPF.2.2.1.trans
            (congrArg lineNumberToOption (hparts.2.2.2.2.1.trans rfl))⟩
      · rw [h2] at h
        dsimp only at h
        have hs : r2.success = true :=
          processTextOnceOkSuccess text il opts Mode.paren smart r2 h2
        rw [publicResultSuccessTrue r2 hs] at h
        cases h
    · rw [if_neg he] at h ⊢
      have hparts := stableFieldsParts hInv.1
      have hp : (processError r e).isPartialResult = false :=
        hparts.2.2.2.2.2.trans rfl
      have hPF := publicResultFailureFields (processError r e) rfl hp
      exact ⟨hPF.1.trans (hparts.2.2.1.trans rfl),
        hPF.2.1.trans (congrArg columnToOption (hparts.2.2.2.1.trans rfl)),
        hPF.2.2.1.trans
          (congrArg lineNumberToOption (hparts.2.2.2.2.1.trans rfl))⟩
  · rw [h1] at h
    dsimp only at h
    have hs : r.success = true :=
      processTextOnceOkSuccess text il opts mode smart r h1
    rw [publicResultSuccessTrue r hs] at h
    cases h

/-- Witness for the amended C3: the failing Paren-mode call on `T4` with
the sentinel cursor answers the original text and a `None` cursor. -/
theorem claim3_amended_witness :
    (processText T4 (splitLines T4) c3opts Mode.paren false).text = T4 ∧
    (processText T4 (splitLines T4) c3opts Mode.paren false).cursorX =
      columnToOption (columnFromOption c3opts.cursorX) ∧
    (processText T4 (splitLines T4) c3opts Mode.paren false).cursorLine =
      lineNumberToOption (lineNumberFromOption c3opts.cursorLine) :=
  claim3_amended_failure_fields T4 (splitLines T4) c3opts Mode.paren false
    (by decide)

/-! ## Claim C2: mode duality

The claim says `paren_mode` returns any successful `indent_mode` output
verbatim.  But Paren mode also re-clamps *top-level* lines: at an indent
point with an empty paren stack, `correct_indent` clamps the column into
`[0, max_indent]`, where `max_indent` was recorded when a top-level form
closed — and Indent mode performs no such clamping on its own output. -/

set_option maxHeartbeats 4000000 in
/-- C2, counterexample: `indent_mode` maps `T2` to `T2I` successfully, but
`paren_mode` does not return `T2I` verbatim — it pulls the top-level line
`" a"` back to column 0. -/
theorem claim2_counterexample :
    (indentMode T2 defaultOptions).success = true ∧
    (indentMode T2 defaultOptions).text = T2I ∧
    (parenMode T2I defaultOptions).success = true ∧
    (parenMode T2I defaultOptions).text = "()\na\na" ∧
    ("()\na\na" : String) ≠ T2I := by
  refine ⟨by decide, by decide, by decide, by decide, by decide⟩

set_option maxHeartbeats 4000000 in
/-- C2 (amended): `paren_mode` returns a successful `indent_mode` output
verbatim only up to top-level re-clamping: at an indent point with an empty
paren stack, `correct_indent` clamps the line's column into
`[0, max_indent]` (the limit recorded from the most recently closed
top-level form) and re-indents exactly when that changes the column; when
no line is pulled back the output does survive `paren_mode` verbatim, as on
`T2G`. -/
theorem claim2_amended_duality (s : State)
    (hp : peek s.parenStack 0 = none) :
    correctIndent s =
      (if clamp ((s.x : Int)) (some 0)
            (s.maxIndent.map (fun m => (m : Int))) = (s.x : Int) then s
       else addIndent s
         (clamp ((s.x : Int)) (some 0)
             (s.maxIndent.map (fun m => (m : Int))) - (s.x : Int))) ∧
    (indentMode T2G defaultOptions).success = true ∧
    (parenMode ((indentMode T2G defaultOptions).text) defaultOptions).text =
      (indentMode T2G defaultOptions).text := by
  refine ⟨?_, by decide, by decide⟩
  unfold correctIndent
  rw [hp]
  by_cases h : clamp ((s.x : Int)) (some 0)
      (s.maxIndent.map (fun m => (m : Int))) = (s.x : Int) <;>
    simp [h]

/-- Witness for the amended C2 at a concrete empty-stack state (the initial
state has an empty paren stack). -/
theorem claim2_amended_witness :
    (parenMode ((indentMode T2G defaultOptions).text) defaultOptions).text =
      (indentMode T2G defaultOptions).text :=
  (claim2_amended_duality
    (getInitialResult "" [] defaultOptions Mode.paren false) rfl).2.2

end Parinfer
